import Mathlib

/-!
# Verification of the `lili` bytecode debugger

A shallow embedding of the `lili` Python-bytecode debugger
(`src/lili/compat.py`, `src/lili/vm.py`, `src/lili/assembler.py`)
together with proofs checking the natural-language specification
against the code.

Conventions used throughout:

* Python machine values are modelled by the inductive `Value`;
  CPython `int` is arbitrary precision so it maps to `Int`.
* Python `float` results are carried as exact rationals (`Rat`); no
  claim in scope depends on IEEE rounding, only on which operations
  raise and on stack shapes.
* Fallible Python code is modelled with `Except` / explicit error
  components; an exception escaping a statement is an `Except.error`.
* The source identifier `unsafe` (a Lean keyword-like token) is
  rendered as `uflag` for the boolean parameter, `uIgnores` for the
  `unsafe_ignores` table and `ugate` for the `UnsafeOperation`
  exception; comments note the original spelling.
-/

namespace Lili

/-! ## `lili/compat.py` -/

/-- One component of a Python version tuple: CPython's
`sys.version_info`-style tuples mix `int` and `str` components
(`Version = tuple[Union[int, str], ...]` in `compat.py`). -/
inductive VC where
  | num (n : Int)
  | txt (s : String)
deriving DecidableEq, Repr

/-- `Version` from `compat.py`: a tuple of ints and strings. -/
abbrev PyVersion := List VC

/-- Host exceptions that the embedded code can raise
(`TypeError`, `IndexError`, `NameError`, ...). -/
inductive HostExc where
  | typeError (m : String)
  | indexError
  | nameError (m : String)
  | zeroDivisionError
  | valueError (m : String)
  | exc (m : String)
deriving DecidableEq, Repr

/-- Python `<` on two version-tuple components.  Comparing an `int`
with a `str` raises `TypeError` in Python 3; that case is an error. -/
def vcLt : VC → VC → Except HostExc Bool
  | VC.num a, VC.num b => Except.ok (a < b)
  | VC.txt a, VC.txt b => Except.ok (a < b)
  | _, _ => Except.error (HostExc.typeError "int/str comparison")

/-- Python `==` on version-tuple components (never raises). -/
def vcEq : VC → VC → Bool
  | VC.num a, VC.num b => a == b
  | VC.txt a, VC.txt b => a == b
  | _, _ => false

/-- Python tuple `<`: lexicographic, a strict prefix is smaller.
This is the comparison evaluated by `self.version < FIXED_WIDTH_OPCODES`
in `vm.py`. -/
def pyVerLt : PyVersion → PyVersion → Except HostExc Bool
  | [], [] => Except.ok false
  | [], _ :: _ => Except.ok true
  | _ :: _, [] => Except.ok false
  | a :: as, b :: bs => do
    if vcEq a b then
      pyVerLt as bs
    else
      vcLt a b

/-- `FIXED_WIDTH_OPCODES = (3, 6, 0, "alpha", 2)` (`compat.py`). -/
def FIXED_WIDTH_OPCODES : PyVersion :=
  [VC.num 3, VC.num 6, VC.num 0, VC.txt "alpha", VC.num 2]

/-- `DETERMINISTIC_PYC = (3, 7, 0, "alpha", 4)`. -/
def DETERMINISTIC_PYC : PyVersion :=
  [VC.num 3, VC.num 7, VC.num 0, VC.txt "alpha", VC.num 4]

/-- `POSITIONAL_ONLY_PARAMS = (3, 8, 0, "alpha", 1)`. -/
def POSITIONAL_ONLY_PARAMS : PyVersion :=
  [VC.num 3, VC.num 8, VC.num 0, VC.txt "alpha", VC.num 1]

/-- `ANNOTATIONS_IS_DEFAULT = (3, 10, 0, "alpha", 1)`. -/
def ANNOTATIONS_IS_DEFAULT : PyVersion :=
  [VC.num 3, VC.num 10, VC.num 0, VC.txt "alpha", VC.num 1]

/-- `ANNOTATIONS_USES_TUPLE = (3, 10, 0, "alpha", 2)`. -/
def ANNOTATIONS_USES_TUPLE : PyVersion :=
  [VC.num 3, VC.num 10, VC.num 0, VC.txt "alpha", VC.num 2]

/-- `JUMP_BY_OFFSET = (3, 10, 0, "alpha", 7)`. -/
def JUMP_BY_OFFSET : PyVersion :=
  [VC.num 3, VC.num 10, VC.num 0, VC.txt "alpha", VC.num 7]

/-- `ANNOTATIONS_IS_NOT_DEFAULT = (3, 10, 0, "beta", 1)`. -/
def ANNOTATIONS_IS_NOT_DEFAULT : PyVersion :=
  [VC.num 3, VC.num 10, VC.num 0, VC.txt "beta", VC.num 1]

/-- `PYC_MAGIC_NUMBERS` from `compat.py`, in insertion (iteration)
order: Python dicts iterate in insertion order, which the walk in
`read_pyc` relies on. -/
def PYC_MAGIC_NUMBERS : List (Nat × PyVersion) :=
  [ (3000, [VC.num 3, VC.num 0, VC.num 0])
  , (3370, FIXED_WIDTH_OPCODES)
  , (3392, DETERMINISTIC_PYC)
  , (3410, POSITIONAL_ONLY_PARAMS)
  , (3430, ANNOTATIONS_IS_DEFAULT)
  , (3432, ANNOTATIONS_USES_TUPLE)
  , (3435, JUMP_BY_OFFSET)
  , (3437, ANNOTATIONS_IS_NOT_DEFAULT)
  , (3550, [VC.num 3, VC.num 13, VC.num 0])
  ]

/-- Failure modes of the version lookup in `read_pyc`. -/
inductive PycErr where
  /-- `RuntimeError(f"unknown magic header: ...")` for magic outside
  `range(3000, 4000)`. -/
  | badMagic
  /-- The loop `for k, v in PYC_MAGIC_NUMBERS.items(): if magic <= k:
  break; version = v` broke before ever assigning `version`, so the
  later `return version, ...` raises `UnboundLocalError`. -/
  | unboundVersion
deriving DecidableEq, Repr

/-- The loop body of the registry walk in `read_pyc`:
`for k, v in PYC_MAGIC_NUMBERS.items(): if magic <= k: break;
version = v`.  The Python local `version` starts unbound; it is
carried as an `Option`. -/
def pycWalk (magic : Nat) :
    List (Nat × PyVersion) → Option PyVersion → Option PyVersion
  | [], acc => acc
  | (k, v) :: rest, acc =>
    if magic ≤ k then acc else pycWalk magic rest (some v)

/-- The version lookup inside `read_pyc` (`compat.py` lines 139-152),
given the already-parsed 2-byte little-endian magic: reject magic
outside `range(3000, 4000)`, then iterate the registry in order,
breaking as soon as `magic <= k` and otherwise remembering `v`.
Returning an unbound `version` is `UnboundLocalError`. -/
def readPycVersion (magic : Nat) : Except PycErr PyVersion :=
  if magic < 3000 ∨ 4000 ≤ magic then
    Except.error PycErr.badMagic
  else
    match pycWalk magic PYC_MAGIC_NUMBERS none with
    | some v => Except.ok v
    | none => Except.error PycErr.unboundVersion

/-- The version lookup the specification describes: the version marker
of the greatest registered magic that is `≤` the file's magic.
Modelled from the spec: "Walk the ordered version-registry table
(magic → version marker) to find the greatest registered magic ≤ the
file's magic" — this is the reference function C2 compares
`readPycVersion` against. -/
def specPycVersion (magic : Nat) : Option PyVersion :=
  (PYC_MAGIC_NUMBERS.filter (fun kv => kv.1 ≤ magic)).getLast?.map (·.2)

/-! ## The value model (`types.CodeType`, `types.FunctionType`,
machine values) -/

mutual

/-- The fields of a CPython code object that `lili` reads:
`co_code`, `co_consts`, `co_names`, `co_varnames`, `co_argcount`,
`co_flags`, `co_name`.  Bytecode is the byte sequence `co_code`. -/
inductive CodeRec where
  | mk (code : List Nat) (consts : List Value) (names : List String)
      (varnames : List String) (argcount : Nat) (flags : Nat)
      (name : String)

/-- A `types.FunctionType` value as far as the debugger observes it:
`__code__`, `__globals__` (captured by `MAKE_FUNCTION` from the
constructing frame), `__name__` and `__defaults__`.
`__annotations__`/`__kwdefaults__` are set on the host object by
`MAKE_FUNCTION` but never read back by any modelled operation. -/
inductive FuncRec where
  | mk (code : CodeRec) (globalsSnap : List (String × Value))
      (name : String) (defaults : List Value)

/-- Machine values flowing through the operand stack and scopes.
Python `float` is carried as an exact rational: only raising
behaviour and stack shape matter to the claims, not IEEE rounding. -/
inductive Value where
  | pynone
  | vbool (b : Bool)
  | vint (n : Int)
  | vfloat (q : Rat)
  | vstr (s : String)
  | vtuple (xs : List Value)
  | vlist (xs : List Value)
  | vcode (c : CodeRec)
  | vfunc (f : FuncRec)

end

/-- Projections for `CodeRec` (a structure is not allowed inside a
mutual block on this toolchain). -/
def CodeRec.co_code : CodeRec → List Nat
  | CodeRec.mk c _ _ _ _ _ _ => c

def CodeRec.co_consts : CodeRec → List Value
  | CodeRec.mk _ k _ _ _ _ _ => k

def CodeRec.co_names : CodeRec → List String
  | CodeRec.mk _ _ n _ _ _ _ => n

def CodeRec.co_varnames : CodeRec → List String
  | CodeRec.mk _ _ _ v _ _ _ => v

def CodeRec.co_argcount : CodeRec → Nat
  | CodeRec.mk _ _ _ _ a _ _ => a

def CodeRec.co_flags : CodeRec → Nat
  | CodeRec.mk _ _ _ _ _ f _ => f

def CodeRec.co_name : CodeRec → String
  | CodeRec.mk _ _ _ _ _ _ n => n

def FuncRec.fcode : FuncRec → CodeRec
  | FuncRec.mk c _ _ _ => c

def FuncRec.fglobals : FuncRec → List (String × Value)
  | FuncRec.mk _ g _ _ => g

def FuncRec.fname : FuncRec → String
  | FuncRec.mk _ _ n _ => n

def FuncRec.fdefaults : FuncRec → List Value
  | FuncRec.mk _ _ _ d => d

/-! ## Python container semantics (dicts, list indexing, slices) -/

/-- A Python `dict[str, α]` as an association list in insertion
order; keys are unique (maintained by `dictSet`). -/
abbrev PyDict (α : Type) := List (String × α)

/-- `d[k]` as an `Option` (`None` = `KeyError`). -/
def dictGet {α} (d : PyDict α) (k : String) : Option α :=
  match d.find? (fun kv => kv.1 == k) with
  | some kv => some kv.2
  | none => none

/-- `k in d`. -/
def dictMem {α} (d : PyDict α) (k : String) : Bool :=
  (dictGet d k).isSome

/-- `d[k] = v`: replace in place if the key exists (insertion order
kept), else append. -/
def dictSet {α} : PyDict α → String → α → PyDict α
  | [], k, v => [(k, v)]
  | (k', v') :: rest, k, v =>
    if k' == k then (k', v) :: rest else (k', v') :: dictSet rest k v

/-- Python dict union `a | b`: start from `a` and write every entry
of `b` over it, so on duplicate keys the value of `b` (the RIGHT
operand) wins. -/
def dictUnion {α} (a b : PyDict α) : PyDict α :=
  b.foldl (fun acc kv => dictSet acc kv.1 kv.2) a

/-- `dict(zip(keys, vals))`: pair up to the shorter sequence,
later duplicates overwrite earlier ones. -/
def dictZip {α} (keys : List String) (vals : List α) : PyDict α :=
  (List.zip keys vals).foldl (fun acc kv => dictSet acc kv.1 kv.2) []

/-- Normalise a Python index `i` against a list of length `len`:
negative indices count from the end; out of range is `none`
(`IndexError`). -/
def pyIdx (len : Nat) (i : Int) : Option Nat :=
  if i < 0 then
    if 0 ≤ i + len then some (i + len).toNat else none
  else
    if i < len then some i.toNat else none

/-- `l[i]` with Python index semantics. -/
def pyGetIdx {α} (l : List α) (i : Int) : Except HostExc α :=
  match pyIdx l.length i with
  | some j =>
    match l.get? j with
    | some x => Except.ok x
    | none => Except.error HostExc.indexError
  | none => Except.error HostExc.indexError

/-- `l[i] = v` with Python index semantics. -/
def pySetIdx {α} (l : List α) (i : Int) (v : α) : Except HostExc (List α) :=
  match pyIdx l.length i with
  | some j => Except.ok (l.set j v)
  | none => Except.error HostExc.indexError

/-- `l.pop(i)` with Python index semantics: returns the removed
element and the remaining list. -/
def pyPopIdx {α} (l : List α) (i : Int) : Except HostExc (α × List α) :=
  match pyIdx l.length i with
  | some j =>
    match l.get? j with
    | some x => Except.ok (x, l.take j ++ l.drop (j + 1))
    | none => Except.error HostExc.indexError
  | none => Except.error HostExc.indexError

/-- Normalise a slice bound `i` against length `len`
(Python slices clamp instead of raising). -/
def pySliceBound (len : Nat) (i : Int) : Nat :=
  if i < 0 then
    if i + len < 0 then 0 else (i + len).toNat
  else
    min i.toNat len

/-- `l[a:b]` (never raises). -/
def pySlice {α} (l : List α) (a b : Int) : List α :=
  let s := pySliceBound l.length a
  let e := pySliceBound l.length b
  (l.take e).drop s

/-- `l[a:]` (never raises). -/
def pySliceFrom {α} (l : List α) (a : Int) : List α :=
  l.drop (pySliceBound l.length a)

/-- `l[:a]`. -/
def pySliceTo {α} (l : List α) (a : Int) : List α :=
  l.take (pySliceBound l.length a)

/-- `del l[a:b]`. -/
def pyDelSlice {α} (l : List α) (a b : Int) : List α :=
  let s := pySliceBound l.length a
  let e := pySliceBound l.length b
  if s < e then l.take s ++ l.drop e else l

/-- `l[a:] = xs` (slice assignment replacing the tail). -/
def pySetSliceFrom {α} (l : List α) (a : Int) (xs : List α) : List α :=
  l.take (pySliceBound l.length a) ++ xs

/-! ## Python operator semantics on `Value`

These model the host operators invoked by the opcode handlers in
`vm.py` (`+`, `-`, `*`, `%`, `**`, `//`, `/`, `@`, unary ops,
comparisons, subscription).  Numeric Python values (`bool` ≤ `int` ≤
`float`) are compared and combined through an exact-rational view. -/

/-- Python truthiness (`bool(v)`). -/
def pyTruthy : Value → Bool
  | Value.pynone => false
  | Value.vbool b => b
  | Value.vint n => n != 0
  | Value.vfloat q => q != 0
  | Value.vstr s => !s.isEmpty
  | Value.vtuple xs => !xs.isEmpty
  | Value.vlist xs => !xs.isEmpty
  | Value.vcode _ => true
  | Value.vfunc _ => true

/-- The integer view of a value (`bool` is an `int` subclass). -/
def asInt : Value → Option Int
  | Value.vbool b => some (if b then 1 else 0)
  | Value.vint n => some n
  | _ => none

/-- The numeric (rational) view: `some (isFloat, q)`. -/
def asNum : Value → Option (Bool × Rat)
  | Value.vbool b => some (false, if b then 1 else 0)
  | Value.vint n => some (false, (n : Rat))
  | Value.vfloat q => some (true, q)
  | _ => none

/-- Wrap a rational back up, as a float if either operand was one. -/
def numOut (isFloat : Bool) (q : Rat) : Value :=
  if isFloat then Value.vfloat q else Value.vint q.num

mutual

/-- Python `==` on machine values: numeric kinds compare cross-kind
(`1 == 1.0 == True`), sequences elementwise, different kinds are
unequal, and `==` never raises.  Function (and code) objects are
compared structurally, approximating CPython's identity-based
function equality; no claim depends on that corner. -/
def pyEqV : Value → Value → Bool
  | a, b =>
    match asNum a, asNum b with
    | some (_, x), some (_, y) => x == y
    | _, _ =>
      match a, b with
      | Value.pynone, Value.pynone => true
      | Value.vstr x, Value.vstr y => x == y
      | Value.vtuple xs, Value.vtuple ys => listEqV xs ys
      | Value.vlist xs, Value.vlist ys => listEqV xs ys
      | Value.vcode (CodeRec.mk c k nm vn ac fl cn),
        Value.vcode (CodeRec.mk c' k' nm' vn' ac' fl' cn') =>
        c == c' && listEqV k k' && nm == nm' && vn == vn' &&
          ac == ac' && fl == fl' && cn == cn'
      | Value.vfunc (FuncRec.mk (CodeRec.mk c k nm vn ac fl cn) g fn d),
        Value.vfunc (FuncRec.mk (CodeRec.mk c' k' nm' vn' ac' fl' cn') g' fn' d') =>
        c == c' && listEqV k k' && nm == nm' && vn == vn' &&
          ac == ac' && fl == fl' && cn == cn' && fn == fn' &&
          listEqV d d' && pairsEqV g g'
      | _, _ => false

/-- Elementwise `pyEqV` on sequences of equal length. -/
def listEqV : List Value → List Value → Bool
  | [], [] => true
  | x :: xs, y :: ys => pyEqV x y && listEqV xs ys
  | _, _ => false

/-- Elementwise `pyEqV` on string-keyed pairs. -/
def pairsEqV : List (String × Value) → List (String × Value) → Bool
  | [], [] => true
  | (k, v) :: xs, (k', v') :: ys => k == k' && pyEqV v v' && pairsEqV xs ys
  | _, _ => false

end

mutual

/-- Ordering comparison.  Python `<`/`<=`/`>`/`>=`: numeric kinds
compare through the rational view, strings lexicographically,
same-kind sequences lexicographically (using `==` to locate the
first mismatch, then comparing there; a strict prefix is smaller),
everything else raises `TypeError`. -/
def pyOrdV : Value → Value → Except HostExc Ordering
  | a, b =>
    match asNum a, asNum b with
    | some (_, x), some (_, y) => Except.ok (compare x y)
    | _, _ =>
      match a, b with
      | Value.vstr x, Value.vstr y => Except.ok (compare x y)
      | Value.vtuple xs, Value.vtuple ys => listOrdV xs ys
      | Value.vlist xs, Value.vlist ys => listOrdV xs ys
      | _, _ => Except.error (HostExc.typeError "unorderable types")

/-- Lexicographic comparison of sequences. -/
def listOrdV : List Value → List Value → Except HostExc Ordering
  | [], [] => Except.ok Ordering.eq
  | [], _ :: _ => Except.ok Ordering.lt
  | _ :: _, [] => Except.ok Ordering.gt
  | x :: xs, y :: ys =>
    if pyEqV x y then listOrdV xs ys else pyOrdV x y

end

/-- Python `<` on machine values. -/
def pyLtV (a b : Value) : Except HostExc Bool :=
  (pyOrdV a b).map (· == Ordering.lt)

/-- Python `<=`. -/
def pyLeV (a b : Value) : Except HostExc Bool :=
  (pyOrdV a b).map (· != Ordering.gt)

/-- Python `>`. -/
def pyGtV (a b : Value) : Except HostExc Bool :=
  (pyOrdV a b).map (· == Ordering.gt)

/-- Python `>=`. -/
def pyGeV (a b : Value) : Except HostExc Bool :=
  (pyOrdV a b).map (· != Ordering.lt)

/-- Python `+`: numeric addition or sequence concatenation. -/
def pyAdd (a b : Value) : Except HostExc Value :=
  match asNum a, asNum b with
  | some (fa, x), some (fb, y) => Except.ok (numOut (fa || fb) (x + y))
  | _, _ =>
    match a, b with
    | Value.vstr x, Value.vstr y => Except.ok (Value.vstr (x ++ y))
    | Value.vlist xs, Value.vlist ys => Except.ok (Value.vlist (xs ++ ys))
    | Value.vtuple xs, Value.vtuple ys => Except.ok (Value.vtuple (xs ++ ys))
    | _, _ => Except.error (HostExc.typeError "unsupported operand type(s) for +")

/-- Python `-`: numeric only. -/
def pySub (a b : Value) : Except HostExc Value :=
  match asNum a, asNum b with
  | some (fa, x), some (fb, y) => Except.ok (numOut (fa || fb) (x - y))
  | _, _ => Except.error (HostExc.typeError "unsupported operand type(s) for -")

/-- Sequence repetition count (`seq * n`), clamped at zero. -/
def pyRepeat {α} (xs : List α) (n : Int) : List α :=
  (List.range n.toNat).foldl (fun acc _ => acc ++ xs) []

/-- Python `*`: numeric product or sequence repetition. -/
def pyMul (a b : Value) : Except HostExc Value :=
  match asNum a, asNum b with
  | some (fa, x), some (fb, y) => Except.ok (numOut (fa || fb) (x * y))
  | _, _ =>
    match a, b with
    | Value.vstr s, Value.vbool _ | Value.vstr s, Value.vint _ =>
      match asInt b with
      | some n => Except.ok (Value.vstr (String.join (pyRepeat [s] n)))
      | none => Except.error (HostExc.typeError "can't multiply sequence")
    | Value.vbool _, Value.vstr s | Value.vint _, Value.vstr s =>
      match asInt a with
      | some n => Except.ok (Value.vstr (String.join (pyRepeat [s] n)))
      | none => Except.error (HostExc.typeError "can't multiply sequence")
    | Value.vlist xs, _ =>
      match asInt b with
      | some n => Except.ok (Value.vlist (pyRepeat xs n))
      | none => Except.error (HostExc.typeError "can't multiply sequence")
    | _, Value.vlist xs =>
      match asInt a with
      | some n => Except.ok (Value.vlist (pyRepeat xs n))
      | none => Except.error (HostExc.typeError "can't multiply sequence")
    | Value.vtuple xs, _ =>
      match asInt b with
      | some n => Except.ok (Value.vtuple (pyRepeat xs n))
      | none => Except.error (HostExc.typeError "can't multiply sequence")
    | _, Value.vtuple xs =>
      match asInt a with
      | some n => Except.ok (Value.vtuple (pyRepeat xs n))
      | none => Except.error (HostExc.typeError "can't multiply sequence")
    | _, _ => Except.error (HostExc.typeError "unsupported operand type(s) for *")

/-- Python `//` on rationals (`floor`). -/
def ratFloorDiv (x y : Rat) : Rat := (Rat.floor (x / y) : Int)

/-- Python `%` paired with floor division: `x - y * (x // y)`. -/
def ratPyMod (x y : Rat) : Rat := x - y * ratFloorDiv x y

/-- Python `%`: numeric remainder (sign follows the divisor);
`str % ...` printf-formatting is outside the modelled value
universe and is treated as unsupported. -/
def pyMod (a b : Value) : Except HostExc Value :=
  match asNum a, asNum b with
  | some (fa, x), some (fb, y) =>
    if y == 0 then Except.error HostExc.zeroDivisionError
    else Except.ok (numOut (fa || fb) (ratPyMod x y))
  | _, _ => Except.error (HostExc.typeError "unsupported operand type(s) for %")

/-- Python `//`. -/
def pyFloorDiv (a b : Value) : Except HostExc Value :=
  match asNum a, asNum b with
  | some (fa, x), some (fb, y) =>
    if y == 0 then Except.error HostExc.zeroDivisionError
    else Except.ok (numOut (fa || fb) (ratFloorDiv x y))
  | _, _ => Except.error (HostExc.typeError "unsupported operand type(s) for //")

/-- Python `/`: always float-valued on numbers. -/
def pyTrueDiv (a b : Value) : Except HostExc Value :=
  match asNum a, asNum b with
  | some (_, x), some (_, y) =>
    if y == 0 then Except.error HostExc.zeroDivisionError
    else Except.ok (Value.vfloat (x / y))
  | _, _ => Except.error (HostExc.typeError "unsupported operand type(s) for /")

/-- Python `**`: integral exponents are modelled exactly (an `int`
base with a negative exponent becomes a float, `0 ** negative`
raises); a non-integral float exponent would be a real-valued power
and is not modelled — no claim exercises it. -/
def pyPow (a b : Value) : Except HostExc Value :=
  match asNum a, asNum b with
  | some (fa, x), some (fb, y) =>
    if y.den != 1 then Except.error (HostExc.exc "non-integral power not modelled")
    else if 0 ≤ y.num then
      Except.ok (numOut (fa || fb) (x ^ y.num.toNat))
    else if x == 0 then Except.error HostExc.zeroDivisionError
    else Except.ok (Value.vfloat ((x ^ (-y.num).toNat)⁻¹))
  | _, _ => Except.error (HostExc.typeError "unsupported operand type(s) for **")

/-- Python `@` (matrix multiply): no modelled value implements it. -/
def pyMatMul (_ _ : Value) : Except HostExc Value :=
  Except.error (HostExc.typeError "unsupported operand type(s) for @")

/-- Python unary `+`. -/
def pyPos (a : Value) : Except HostExc Value :=
  match asNum a with
  | some (f, x) => Except.ok (numOut f x)
  | none => Except.error (HostExc.typeError "bad operand type for unary +")

/-- Python unary `-`. -/
def pyNeg (a : Value) : Except HostExc Value :=
  match asNum a with
  | some (f, x) => Except.ok (numOut f (-x))
  | none => Except.error (HostExc.typeError "bad operand type for unary -")

/-- Python unary `~` (ints only). -/
def pyInvert (a : Value) : Except HostExc Value :=
  match asInt a with
  | some n => Except.ok (Value.vint (-n - 1))
  | none => Except.error (HostExc.typeError "bad operand type for unary ~")

/-- Python subscription `a[b]` (`BINARY_SUBSCR`): sequences with an
integer (or bool) index; everything else is a `TypeError`.  (Slice
and mapping subscripts never reach the modelled stacks.) -/
def pySubscr (a b : Value) : Except HostExc Value :=
  match a, asInt b with
  | Value.vlist xs, some i => pyGetIdx xs i
  | Value.vtuple xs, some i => pyGetIdx xs i
  | Value.vstr s, some i => (pyGetIdx s.toList i).map (fun c => Value.vstr (String.mk [c]))
  | _, _ => Except.error (HostExc.typeError "unsupported subscript")

/-- Python iteration to a list (`[*v]` in `UNPACK_SEQUENCE`). -/
def pyIterList : Value → Except HostExc (List Value)
  | Value.vtuple xs => Except.ok xs
  | Value.vlist xs => Except.ok xs
  | Value.vstr s => Except.ok (s.toList.map (fun c => Value.vstr (String.mk [c])))
  | _ => Except.error (HostExc.typeError "cannot unpack non-iterable")

/-! ## The host `opcode` module

`vm.py` dispatches through the host interpreter's `opcode` module
(`opcode.opname`, `opcode.HAVE_ARGUMENT`, `opcode.cmp_op`).  This is
external data; the numbering below is CPython 3.10's (the newest
release in which every opcode handled by `lili` still exists). -/

/-- `opcode.HAVE_ARGUMENT`. -/
def HAVE_ARGUMENT : Nat := 90

/-- `opcode.cmp_op` (CPython 3.9+: the six rich comparisons). -/
def cmp_op : List String := ["<", "<=", "==", "!=", ">", ">="]

/-- The `opcode.opname` entries for the opcodes `lili` implements
(plus the `hasname`/`hasjabs` members the assembler consults);
anything else reads back as CPython's `"<n>"` placeholder, which
never matches a handler name. -/
def opnameTable : List (Nat × String) :=
  [ (1, "POP_TOP"), (2, "ROT_TWO"), (3, "ROT_THREE"), (4, "DUP_TOP")
  , (5, "DUP_TOP_TWO"), (6, "ROT_FOUR"), (9, "NOP")
  , (10, "UNARY_POSITIVE"), (11, "UNARY_NEGATIVE"), (12, "UNARY_NOT")
  , (15, "UNARY_INVERT"), (16, "BINARY_MATRIX_MULTIPLY")
  , (17, "INPLACE_MATRIX_MULTIPLY"), (19, "BINARY_POWER")
  , (20, "BINARY_MULTIPLY"), (22, "BINARY_MODULO"), (23, "BINARY_ADD")
  , (24, "BINARY_SUBTRACT"), (25, "BINARY_SUBSCR")
  , (26, "BINARY_FLOOR_DIVIDE"), (27, "BINARY_TRUE_DIVIDE")
  , (28, "INPLACE_FLOOR_DIVIDE"), (29, "INPLACE_TRUE_DIVIDE")
  , (55, "INPLACE_ADD"), (56, "INPLACE_SUBTRACT"), (57, "INPLACE_MULTIPLY")
  , (59, "INPLACE_MODULO"), (67, "INPLACE_POWER")
  , (90, "STORE_NAME"), (91, "DELETE_NAME"), (92, "UNPACK_SEQUENCE")
  , (97, "STORE_GLOBAL"), (98, "DELETE_GLOBAL"), (100, "LOAD_CONST")
  , (101, "LOAD_NAME"), (102, "BUILD_TUPLE"), (103, "BUILD_LIST")
  , (106, "LOAD_ATTR"), (107, "COMPARE_OP"), (108, "IMPORT_NAME")
  , (109, "IMPORT_FROM"), (111, "JUMP_IF_FALSE_OR_POP")
  , (112, "JUMP_IF_TRUE_OR_POP"), (113, "JUMP_ABSOLUTE")
  , (114, "POP_JUMP_IF_FALSE"), (115, "POP_JUMP_IF_TRUE")
  , (116, "LOAD_GLOBAL"), (121, "JUMP_IF_NOT_EXC_MATCH")
  , (124, "LOAD_FAST"), (125, "STORE_FAST"), (131, "CALL_FUNCTION")
  , (132, "MAKE_FUNCTION"), (160, "LOAD_METHOD")
  ]

/-- `opcode.opname[op]`. -/
def opname (op : Nat) : String :=
  match (opnameTable.find? (fun kv => kv.1 == op)) with
  | some kv => kv.2
  | none => "<" ++ toString op ++ ">"

/-- `opcode.hasconst` (CPython ≤ 3.10: just `LOAD_CONST`). -/
def hasconst : List Nat := [100]

/-- `opcode.hasname` (CPython 3.10). -/
def hasname : List Nat := [90, 91, 95, 96, 97, 98, 101, 106, 108, 109, 116, 160]

/-- `opcode.hasjabs` (CPython 3.10). -/
def hasjabs : List Nat := [111, 112, 113, 114, 115, 121]

/-! ## The VM frame (`_WashningMashing` state, `vm.py`) -/

/-- The mutable state of one `_WashningMashing`/`CrossVM` instance.

* `counter` is an `Int`: Python assigns `arg * 2 - 2` in the
  `JUMP_ABSOLUTE` handler, which can go negative (and then indexes
  from the end of the bytecode).
* `builtinsRef` models `self.builtins`: `__init__` stores
  `builtins or {}`, so a child built by `call` shares the *same*
  dict object as its parent when that dict is non-empty and gets a
  fresh empty dict when it is empty (falsy); the frame therefore
  stores a reference into a store of dicts (`Env.builtinsStore`)
  rather than a copy.
* The `parent` back-reference and the `savepoints` list are handled
  outside this structure: `call`/`return_call` pass the parent
  explicitly, and save/restore — whose claims are precisely about
  Python reference semantics — are modelled on the heap machine
  further below.  `step`/`cont` never read either field.
* `uIgnores` is the source's `unsafe_ignores` table
  (opcode name → optional condition). -/
structure Frame where
  code : CodeRec
  counter : Int
  stack : List Value
  locals : PyDict Value
  globals : PyDict Value
  builtinsRef : Nat
  breakpoints : List (Int × Option String)
  uIgnores : List (String × Option String)
  version : PyVersion

/-- `bp in self.breakpoints` / `self.breakpoints[bp]` (int keys). -/
def bpGet (d : List (Int × Option String)) (k : Int) : Option (Option String) :=
  match d.find? (fun kv => kv.1 == k) with
  | some kv => some kv.2
  | none => none

/-- `self.unsafe_ignores[name]` lookup. -/
def uiGet (d : List (String × Option String)) (k : String) : Option (Option String) :=
  match d.find? (fun kv => kv.1 == k) with
  | some kv => some kv.2
  | none => none

/-- The host-level context the VM runs in.  `evalFn` is the host
`eval` used by `_WashningMashing.evaluate` (an oracle: arbitrary
host-language evaluation is outside the embedded semantics), and
`callFn` is the host call `fn(*arguments)` performed by
`CALL_FUNCTION` (calling a function executes host code, not the
debugger's own stepping).  `builtinsStore` holds the builtins dicts
that frames reference by index. -/
structure Env where
  builtinsStore : List (PyDict Value)
  evalFn : PyDict Value → String → Except HostExc Value
  callFn : Value → List Value → Except HostExc Value

/-- The builtins dict this frame references. -/
def Frame.builtins (env : Env) (s : Frame) : PyDict Value :=
  (env.builtinsStore.get? s.builtinsRef).getD []

/-- `_WashningMashing.evaluate(expr, ctx)`: evaluate against
`self.builtins | self.globals | self.locals | ctx`. -/
def evaluate (env : Env) (s : Frame) (expr : String) (ctx : PyDict Value) :
    Except HostExc Value :=
  env.evalFn (dictUnion (dictUnion (dictUnion (s.builtins env) s.globals) s.locals) ctx) expr

/-! ### Exceptions raised by opcode handlers

`UnresolvableOperation(RuntimeError)` and its subclass
`UnsafeOperation` (`vm.py` lines 48-53).  A handler body can raise
ordinary host exceptions; the `_unsafe` wrapper raises
`UnsafeOperation` (`ugate` here).  No handler raises a plain
`UnresolvableOperation` itself. -/
inductive VMExc where
  /-- `UnsafeOperation` raised by the `_unsafe` wrapper. -/
  | ugate
  /-- any other host exception escaping a handler body. -/
  | host (e : HostExc)
deriving DecidableEq, Repr

/-- What `step` returns (`Optional[UnresolvableOperation]`, `None`
mapped to `none`): the `UnsafeOperation` subtype, the
`UnresolvableOperation("unknown opcode")` case, or a generic
`UnresolvableOperation(e)` wrapping the handler's exception `e`. -/
inductive Fault where
  | ugate
  | unknownOpcode
  | wrapped (e : HostExc)
deriving DecidableEq, Repr

/-- A handler computation: state-passing over the frame where
mutations made before an exception PERSIST, exactly like mutating
`self` in Python and then raising. -/
def HStep (α : Type) : Type := Frame → Frame × Except VMExc α

instance : Monad HStep where
  pure a := fun s => (s, Except.ok a)
  bind m f := fun s =>
    match m s with
    | (s', Except.ok a) => f a s'
    | (s', Except.error e) => (s', Except.error e)

/-- Raise an exception (state kept). -/
def hRaise {α} (e : VMExc) : HStep α := fun s => (s, Except.error e)

/-- Lift a host-level `Except` into a handler step. -/
def hLift {α} : Except HostExc α → HStep α
  | Except.ok a => fun s => (s, Except.ok a)
  | Except.error e => fun s => (s, Except.error (VMExc.host e))

/-- Read the whole frame. -/
def hGet : HStep Frame := fun s => (s, Except.ok s)

/-- Transform the stack in place (total transformations only). -/
def hMapStack (f : List Value → List Value) : HStep Unit :=
  fun s => ({ s with stack := f s.stack }, Except.ok ())

/-- `self.stack.append(v)`. -/
def hPush (v : Value) : HStep Unit :=
  hMapStack (fun st => st ++ [v])

/-- `self.stack.pop()` (top of stack is the END of the list). -/
def hPop : HStep Value := fun s =>
  match s.stack.getLast? with
  | some v => ({ s with stack := s.stack.dropLast }, Except.ok v)
  | none => (s, Except.error (VMExc.host HostExc.indexError))

/-- `self.stack.pop(i)`. -/
def hPopIdx (i : Int) : HStep Value := fun s =>
  match pyPopIdx s.stack i with
  | Except.ok (v, rest) => ({ s with stack := rest }, Except.ok v)
  | Except.error e => (s, Except.error (VMExc.host e))

/-- `self.stack[i]` (read only). -/
def hGetIdx (i : Int) : HStep Value := fun s =>
  match pyGetIdx s.stack i with
  | Except.ok v => (s, Except.ok v)
  | Except.error e => (s, Except.error (VMExc.host e))

/-- `self.stack[i] = v`. -/
def hSetIdx (i : Int) (v : Value) : HStep Unit := fun s =>
  match pySetIdx s.stack i v with
  | Except.ok st => ({ s with stack := st }, Except.ok ())
  | Except.error e => (s, Except.error (VMExc.host e))

/-- `self.counter = c` (only `JUMP_ABSOLUTE` does this). -/
def hSetCounter (c : Int) : HStep Unit :=
  fun s => ({ s with counter := c }, Except.ok ())

/-- `self.locals[name] = v`. -/
def hSetLocal (name : String) (v : Value) : HStep Unit :=
  fun s => ({ s with locals := dictSet s.locals name v }, Except.ok ())

/-- `self.globals[name] = v`. -/
def hSetGlobal (name : String) (v : Value) : HStep Unit :=
  fun s => ({ s with globals := dictSet s.globals name v }, Except.ok ())

/-- Sequence lookup that raises `IndexError` out of range
(`co_consts[arg]`, `co_names[arg]`, `cmp_op[arg]`). -/
def listGetExc {α} (l : List α) (i : Nat) : Except HostExc α :=
  match l.get? i with
  | some x => Except.ok x
  | none => Except.error HostExc.indexError

/-! ## Opcode handlers (`vm.py` lines 244-508)

Each `@_handles("NAME")` method becomes one definition below, with
the statements in source order; `@_unsafe`-wrapped handlers are
marked by wrapping with `uwrap` in the dispatch table. -/

/-- A handler: raw operand and the "unsafe allowed" flag (the
source's `unsafe` parameter, spelled `uflag` here). -/
def HandlerFn : Type := Env → Nat → Bool → HStep Unit

/-- The `_unsafe` decorator (`vm.py` lines 39-45): with the flag
unset, raise `UnsafeOperation` before the body runs. -/
def uwrap (h : HandlerFn) : HandlerFn := fun env arg uflag =>
  if uflag then h env arg uflag else hRaise VMExc.ugate

/-- `POP_TOP`: `self.stack.pop()`. -/
def pop_top : HandlerFn := fun _ _ _ => do
  let _ ← hPop
  pure ()

/-- `ROT_TWO`: `self.stack[-2:] = self.stack[-1], self.stack[-2]`. -/
def rot_two : HandlerFn := fun _ _ _ => do
  let a ← hGetIdx (-1)
  let b ← hGetIdx (-2)
  hMapStack (pySetSliceFrom · (-2) [a, b])

/-- `ROT_THREE`: `self.stack[-3:] = [self.stack[-1], *self.stack[-3:-1]]`. -/
def rot_three : HandlerFn := fun _ _ _ => do
  let a ← hGetIdx (-1)
  let s ← hGet
  let mid := pySlice s.stack (-3) (-1)
  hMapStack (pySetSliceFrom · (-3) (a :: mid))

/-- `ROT_FOUR`: `self.stack[-4:] = [self.stack[-1], *self.stack[-4:-1]]`. -/
def rot_four : HandlerFn := fun _ _ _ => do
  let a ← hGetIdx (-1)
  let s ← hGet
  let mid := pySlice s.stack (-4) (-1)
  hMapStack (pySetSliceFrom · (-4) (a :: mid))

/-- `DUP_TOP`: `self.stack.append(self.stack[-1])`. -/
def dup_top : HandlerFn := fun _ _ _ => do
  let a ← hGetIdx (-1)
  hPush a

/-- `DUP_TOP_TWO`: `self.stack.extend(self.stack[-2:])`. -/
def dup_top_two : HandlerFn := fun _ _ _ => do
  let s ← hGet
  hMapStack (· ++ pySliceFrom s.stack (-2))

/-- `NOP`. -/
def nop : HandlerFn := fun _ _ _ => pure ()

/-- `UNARY_POSITIVE` (unsafe): `self.stack.append(+self.stack.pop())`. -/
def unary_positive : HandlerFn := fun _ _ _ => do
  let v ← hPop
  let r ← hLift (pyPos v)
  hPush r

/-- `UNARY_NEGATIVE` (unsafe). -/
def unary_negative : HandlerFn := fun _ _ _ => do
  let v ← hPop
  let r ← hLift (pyNeg v)
  hPush r

/-- `UNARY_NOT` (unsafe): `not v` never raises. -/
def unary_not : HandlerFn := fun _ _ _ => do
  let v ← hPop
  hPush (Value.vbool (!pyTruthy v))

/-- `UNARY_INVERT` (unsafe). -/
def unary_invert : HandlerFn := fun _ _ _ => do
  let v ← hPop
  let r ← hLift (pyInvert v)
  hPush r

/-- Shared shape of the `BINARY_*` handlers:
`self.stack.append(self.stack.pop(-2) OP self.stack.pop())`. -/
def binHandler (f : Value → Value → Except HostExc Value) : HandlerFn :=
  fun _ _ _ => do
    let a ← hPopIdx (-2)
    let b ← hPop
    let r ← hLift (f a b)
    hPush r

/-- Shared shape of the `INPLACE_*` handlers:
`self.stack[-2] OP= self.stack[-1]; self.stack.pop()`. -/
def inplHandler (f : Value → Value → Except HostExc Value) : HandlerFn :=
  fun _ _ _ => do
    let a ← hGetIdx (-2)
    let b ← hGetIdx (-1)
    let r ← hLift (f a b)
    hSetIdx (-2) r
    let _ ← hPop
    pure ()

/-- `BINARY_MATRIX_MULTIPLY` (unsafe). -/
def binary_matrix_multiply : HandlerFn := binHandler pyMatMul

/-- `INPLACE_MATRIX_MULTIPLY` (unsafe). -/
def inplace_matrix_multiply : HandlerFn := inplHandler pyMatMul

/-- `BINARY_POWER` (unsafe). -/
def binary_power : HandlerFn := binHandler pyPow

/-- `INPLACE_POWER` (unsafe). -/
def inplace_power : HandlerFn := inplHandler pyPow

/-- `BINARY_MULTIPLY` (unsafe). -/
def binary_multiply : HandlerFn := binHandler pyMul

/-- `INPLACE_MULTIPLY` (unsafe).  NOTE: the source body is
`self.stack[-2] **= self.stack[-1]` — it applies POWER, not
multiplication; embedded as written. -/
def inplace_multiply : HandlerFn := inplHandler pyPow

/-- `BINARY_MODULO` (unsafe). -/
def binary_modulo : HandlerFn := binHandler pyMod

/-- `INPLACE_MODULO` (unsafe). -/
def inplace_modulo : HandlerFn := inplHandler pyMod

/-- `BINARY_ADD` (unsafe). -/
def binary_add : HandlerFn := binHandler pyAdd

/-- `INPLACE_ADD` (unsafe). -/
def inplace_add : HandlerFn := inplHandler pyAdd

/-- `BINARY_SUBTRACT` (unsafe). -/
def binary_subtract : HandlerFn := binHandler pySub

/-- `INPLACE_SUBTRACT` (unsafe). -/
def inplace_subtract : HandlerFn := inplHandler pySub

/-- `BINARY_FLOOR_DIVIDE` (unsafe). -/
def binary_floor_divide : HandlerFn := binHandler pyFloorDiv

/-- `INPLACE_FLOOR_DIVIDE` (unsafe). -/
def inplace_floor_divide : HandlerFn := inplHandler pyFloorDiv

/-- `BINARY_TRUE_DIVIDE` (unsafe). -/
def binary_true_divide : HandlerFn := binHandler pyTrueDiv

/-- `INPLACE_TRUE_DIVIDE` (unsafe). -/
def inplace_true_divide : HandlerFn := inplHandler pyTrueDiv

/-- `BINARY_SUBSCR` (unsafe). -/
def binary_subscr : HandlerFn := binHandler pySubscr

/-- `COMPARE_OP` (unsafe): look up `opcode.cmp_op[arg]`, pop right
then left, push the comparison result; an unrecognised member of
`cmp_op` falls through pushing nothing. -/
def compare_op : HandlerFn := fun _ arg _ => do
  let op ← hLift (listGetExc cmp_op arg)
  let right ← hPop
  let left ← hPop
  if op == "<" then do
    let b ← hLift (pyLtV left right)
    hPush (Value.vbool b)
  else if op == "<=" then do
    let b ← hLift (pyLeV left right)
    hPush (Value.vbool b)
  else if op == "==" then
    hPush (Value.vbool (pyEqV left right))
  else if op == "!=" then
    hPush (Value.vbool (!pyEqV left right))
  else if op == ">" then do
    let b ← hLift (pyGtV left right)
    hPush (Value.vbool b)
  else if op == ">=" then do
    let b ← hLift (pyGeV left right)
    hPush (Value.vbool b)
  else
    pure ()

/-- `LOAD_CONST`: `self.stack.append(self.code.co_consts[arg])`. -/
def load_const : HandlerFn := fun _ arg _ => do
  let s ← hGet
  let v ← hLift (listGetExc s.code.co_consts arg)
  hPush v

/-- `LOAD_NAME`: scan locals, globals, builtins; `NameError` if
absent everywhere. -/
def load_name : HandlerFn := fun env arg _ => do
  let s ← hGet
  let name ← hLift (listGetExc s.code.co_names arg)
  match dictGet s.locals name with
  | some v => hPush v
  | none =>
    match dictGet s.globals name with
    | some v => hPush v
    | none =>
      match dictGet (s.builtins env) name with
      | some v => hPush v
      | none => hRaise (VMExc.host (HostExc.nameError (name ++ " is not defined")))

/-- `STORE_NAME`: `self.locals[name] = self.stack.pop()`. -/
def store_name : HandlerFn := fun _ arg _ => do
  let s ← hGet
  let name ← hLift (listGetExc s.code.co_names arg)
  let v ← hPop
  hSetLocal name v

/-- `LOAD_FAST`: locals only. -/
def load_fast : HandlerFn := fun _ arg _ => do
  let s ← hGet
  let name ← hLift (listGetExc s.code.co_varnames arg)
  match dictGet s.locals name with
  | some v => hPush v
  | none => hRaise (VMExc.host (HostExc.nameError ("local " ++ name ++ " is not defined")))

/-- `STORE_FAST`. -/
def store_fast : HandlerFn := fun _ arg _ => do
  let s ← hGet
  let name ← hLift (listGetExc s.code.co_varnames arg)
  let v ← hPop
  hSetLocal name v

/-- `LOAD_GLOBAL`: globals then builtins (the source's error message
really says "local ... is not defined"). -/
def load_global : HandlerFn := fun env arg _ => do
  let s ← hGet
  let name ← hLift (listGetExc s.code.co_names arg)
  match dictGet s.globals name with
  | some v => hPush v
  | none =>
    match dictGet (s.builtins env) name with
    | some v => hPush v
    | none => hRaise (VMExc.host (HostExc.nameError ("local " ++ name ++ " is not defined")))

/-- `STORE_GLOBAL`. -/
def store_global : HandlerFn := fun _ arg _ => do
  let s ← hGet
  let name ← hLift (listGetExc s.code.co_names arg)
  let v ← hPop
  hSetGlobal name v

/-- `BUILD_TUPLE`: `self.stack.append(tuple(self.stack[-arg:]))`
then `del self.stack[-arg - 1:-1]`.  (With `arg = 0` the slice
`[-0:]` is the WHOLE stack and the delete is empty — embedded as
written.) -/
def build_tuple : HandlerFn := fun _ arg _ => do
  let s ← hGet
  hPush (Value.vtuple (pySliceFrom s.stack (-(arg : Int))))
  hMapStack (pyDelSlice · (-(arg : Int) - 1) (-1))

/-- `BUILD_LIST`: list analogue of `BUILD_TUPLE`. -/
def build_list : HandlerFn := fun _ arg _ => do
  let s ← hGet
  hPush (Value.vlist (pySliceFrom s.stack (-(arg : Int))))
  hMapStack (pyDelSlice · (-(arg : Int) - 1) (-1))

/-- `UNPACK_SEQUENCE`:
`self.stack.extend([*self.stack.pop()][:arg])`. -/
def unpack_sequence : HandlerFn := fun _ arg _ => do
  let v ← hPop
  let xs ← hLift (pyIterList v)
  hMapStack (· ++ xs.take arg)

/-- `types.FunctionType` argument 1: must be a code object. -/
def asCodeE : Value → Except HostExc CodeRec
  | Value.vcode c => Except.ok c
  | _ => Except.error (HostExc.typeError "function() argument 'code' must be code")

/-- `types.FunctionType` argument 3: must be a string. -/
def asStrE : Value → Except HostExc String
  | Value.vstr s => Except.ok s
  | _ => Except.error (HostExc.typeError "function() argument 'name' must be str")

/-- `types.FunctionType` argument 4: `None` or a tuple of defaults. -/
def asDefaultsE : Option Value → Except HostExc (List Value)
  | none => Except.ok []
  | some Value.pynone => Except.ok []
  | some (Value.vtuple xs) => Except.ok xs
  | some _ => Except.error (HostExc.typeError "function() argument 'argdefs' must be a tuple")

/-- `types.FunctionType` argument 5: `None` or a tuple of cells. -/
def checkCellsE : Option Value → Except HostExc Unit
  | none => Except.ok ()
  | some Value.pynone => Except.ok ()
  | some (Value.vtuple _) => Except.ok ()
  | some _ => Except.error (HostExc.typeError "function() argument 'closure' must be a tuple")

/-- `annotations[::2]` requires a sliceable sequence. -/
def checkSliceableE : Value → Except HostExc Unit
  | Value.vtuple _ => Except.ok ()
  | Value.vlist _ => Except.ok ()
  | Value.vstr _ => Except.ok ()
  | _ => Except.error (HostExc.typeError "object is not subscriptable")

/-- `MAKE_FUNCTION` (`vm.py` lines 465-485): pop name and code, pop
the flagged extras, build `types.FunctionType(func_code,
self.globals, name, arg_defaults, cells)`, process annotations and
keyword defaults, push the function.  The `__annotations__` dict
and `__kwdefaults__` are set on the host function object but are
never read back by any modelled operation, so only their
raising behaviour is kept (`fn.__kwdefaults__ = v` demands a host
dict, which no modelled value is). -/
def mfPopIf (flagged : Bool) : HStep (Option Value) :=
  if flagged then hPop >>= fun v => pure (some v) else pure none

/-- `fn.__annotations__ = dict(zip(annotations[::2],
annotations[1::2]))` guarded by `if annotations:`. -/
def mfAnnotations : Option Value → HStep Unit
  | some av => if pyTruthy av then hLift (checkSliceableE av) else pure ()
  | none => pure ()

/-- `fn.__kwdefaults__ = kwarg_defaults` guarded by
`if kwarg_defaults:`. -/
def mfKwDefaults : Option Value → HStep Unit
  | some kv =>
    if pyTruthy kv then
      hRaise (VMExc.host (HostExc.typeError "__kwdefaults__ must be set to a dict object"))
    else pure ()
  | none => pure ()

def make_function : HandlerFn := fun _ arg _ => do
  let name ← hPop
  let func_code ← hPop
  let cells ← mfPopIf (arg &&& 8 != 0)
  let annotations ← mfPopIf (arg &&& 4 != 0)
  let kwarg_defaults ← mfPopIf (arg &&& 2 != 0)
  let arg_defaults ← mfPopIf (arg &&& 1 != 0)
  let c ← hLift (asCodeE func_code)
  let nm ← hLift (asStrE name)
  let defs ← hLift (asDefaultsE arg_defaults)
  let _ ← hLift (checkCellsE cells)
  let s ← hGet
  let fn := Value.vfunc (FuncRec.mk c s.globals nm defs)
  let _ ← mfAnnotations annotations
  let _ ← mfKwDefaults kwarg_defaults
  hPush fn

/-- `del self.stack[-arg:]`. -/
def pyDelSliceFrom {α} (l : List α) (a : Int) : List α :=
  l.take (pySliceBound l.length a)

/-- The default-filling slice shared by `CALL_FUNCTION` and `call`:
`defaults[code.co_argcount - len(defaults) - len(arguments):]`. -/
def defaultsSlice (defaults : List Value) (argcount : Nat) (supplied : Nat) :
    List Value :=
  pySliceFrom defaults ((argcount : Int) - defaults.length - supplied)

/-- `CALL_FUNCTION` (unsafe, `vm.py` lines 487-503): collect `arg`
positional arguments, pop the callee, extend with defaults when the
callee is a `types.FunctionType`, then perform the host call
`fn(*arguments)` — host execution, modelled by the `Env.callFn`
oracle — and push its result. -/
def cfArguments (arg : Nat) : HStep (List Value) :=
  if arg != 0 then do
    let s ← hGet
    let a := pySliceFrom s.stack (-(arg : Int))
    hMapStack (pyDelSliceFrom · (-(arg : Int)))
    pure a
  else pure []

def call_function : HandlerFn := fun env arg _ => do
  let arguments ← cfArguments arg
  let fn ← hPop
  let arguments :=
    match fn with
    | Value.vfunc f =>
      arguments ++ defaultsSlice f.fdefaults f.fcode.co_argcount arguments.length
    | _ => arguments
  let r ← hLift (env.callFn fn arguments)
  hPush r

/-- `JUMP_ABSOLUTE` (unsafe): `self.counter = arg * 2 - 2`. -/
def jump_absolute : HandlerFn := fun _ arg _ =>
  hSetCounter ((arg : Int) * 2 - 2)

/-- The handler table built by `__init_subclass__` from the
`@_handles` registrations, keyed by opcode name; `_unsafe`-decorated
handlers appear wrapped. -/
def handlers : String → Option HandlerFn
  | "POP_TOP" => some pop_top
  | "ROT_TWO" => some rot_two
  | "ROT_THREE" => some rot_three
  | "ROT_FOUR" => some rot_four
  | "DUP_TOP" => some dup_top
  | "DUP_TOP_TWO" => some dup_top_two
  | "NOP" => some nop
  | "UNARY_POSITIVE" => some (uwrap unary_positive)
  | "UNARY_NEGATIVE" => some (uwrap unary_negative)
  | "UNARY_NOT" => some (uwrap unary_not)
  | "UNARY_INVERT" => some (uwrap unary_invert)
  | "BINARY_MATRIX_MULTIPLY" => some (uwrap binary_matrix_multiply)
  | "INPLACE_MATRIX_MULTIPLY" => some (uwrap inplace_matrix_multiply)
  | "BINARY_POWER" => some (uwrap binary_power)
  | "INPLACE_POWER" => some (uwrap inplace_power)
  | "BINARY_MULTIPLY" => some (uwrap binary_multiply)
  | "INPLACE_MULTIPLY" => some (uwrap inplace_multiply)
  | "BINARY_MODULO" => some (uwrap binary_modulo)
  | "INPLACE_MODULO" => some (uwrap inplace_modulo)
  | "BINARY_ADD" => some (uwrap binary_add)
  | "INPLACE_ADD" => some (uwrap inplace_add)
  | "BINARY_SUBTRACT" => some (uwrap binary_subtract)
  | "INPLACE_SUBTRACT" => some (uwrap inplace_subtract)
  | "BINARY_FLOOR_DIVIDE" => some (uwrap binary_floor_divide)
  | "INPLACE_FLOOR_DIVIDE" => some (uwrap inplace_floor_divide)
  | "BINARY_TRUE_DIVIDE" => some (uwrap binary_true_divide)
  | "INPLACE_TRUE_DIVIDE" => some (uwrap inplace_true_divide)
  | "BINARY_SUBSCR" => some (uwrap binary_subscr)
  | "COMPARE_OP" => some (uwrap compare_op)
  | "LOAD_CONST" => some load_const
  | "LOAD_NAME" => some load_name
  | "STORE_NAME" => some store_name
  | "LOAD_FAST" => some load_fast
  | "STORE_FAST" => some store_fast
  | "LOAD_GLOBAL" => some load_global
  | "STORE_GLOBAL" => some store_global
  | "BUILD_TUPLE" => some build_tuple
  | "BUILD_LIST" => some build_list
  | "UNPACK_SEQUENCE" => some unpack_sequence
  | "MAKE_FUNCTION" => some make_function
  | "CALL_FUNCTION" => some (uwrap call_function)
  | "JUMP_ABSOLUTE" => some (uwrap jump_absolute)
  | _ => none

/-- The opcode names whose handlers are `@_unsafe`-decorated — the
statically "unsafe" classification of `vm.py`. -/
def unsafeNames : List String :=
  [ "UNARY_POSITIVE", "UNARY_NEGATIVE", "UNARY_NOT", "UNARY_INVERT"
  , "BINARY_MATRIX_MULTIPLY", "INPLACE_MATRIX_MULTIPLY"
  , "BINARY_POWER", "INPLACE_POWER", "BINARY_MULTIPLY", "INPLACE_MULTIPLY"
  , "BINARY_MODULO", "INPLACE_MODULO", "BINARY_ADD", "INPLACE_ADD"
  , "BINARY_SUBTRACT", "INPLACE_SUBTRACT", "BINARY_FLOOR_DIVIDE"
  , "INPLACE_FLOOR_DIVIDE", "BINARY_TRUE_DIVIDE", "INPLACE_TRUE_DIVIDE"
  , "BINARY_SUBSCR", "COMPARE_OP", "CALL_FUNCTION", "JUMP_ABSOLUTE"
  ]

/-! ## Instruction decoding and stepping (`CrossVM`, `vm.py`) -/

/-- `int.from_bytes(bs, "little")`. -/
def leBytes (bs : List Nat) : Nat :=
  bs.foldr (fun b acc => b + 256 * acc) 0

/-- `CrossVM.current_opcode` (`vm.py` lines 209-216): read the
opcode byte at the counter; below `FIXED_WIDTH_OPCODES` a
no-operand opcode has operand 0 and an operand-bearing one a 2-byte
little-endian operand; at or above, the operand is the single next
byte (an `IndexError` if the counter is at the last byte — the read
happens outside any `try`). -/
def currentOpcode (s : Frame) : Except HostExc (Nat × Nat) := do
  let co := s.code.co_code
  let op ← pyGetIdx co s.counter
  let lt ← pyVerLt s.version FIXED_WIDTH_OPCODES
  if lt then
    if op < HAVE_ARGUMENT then
      pure (op, 0)
    else
      pure (op, leBytes (pySlice co (s.counter + 1) (s.counter + 3)))
  else do
    let b ← pyGetIdx co (s.counter + 1)
    pure (op, b)

/-- `CrossVM.next_opcode(i)` (`vm.py` lines 218-226) at an explicit
index. -/
def nextOpcodeAt (s : Frame) (i : Int) : Except HostExc Int := do
  let op ← pyGetIdx s.code.co_code i
  let lt ← pyVerLt s.version FIXED_WIDTH_OPCODES
  if lt then
    if op < HAVE_ARGUMENT then pure (i + 1) else pure (i + 3)
  else
    pure (i + 2)

/-- `CrossVM.next_opcode()` with the default `i = self.counter`. -/
def nextOpcode (s : Frame) : Except HostExc Int :=
  nextOpcodeAt s s.counter

/-- The `unsafe_ignores` consultation at the top of `step`
(`vm.py` lines 90-96): an entry for the opcode name overrides the
caller-supplied flag — with a non-empty condition string the flag
becomes the truthiness of `evaluate(condition, {"arg": arg,
"stack": self.stack})` (whose exceptions escape `step`), with a
falsy condition it becomes `True`. -/
def effUnsafe (env : Env) (s : Frame) (opName : String) (arg : Nat)
    (uflag : Bool) : Except HostExc Bool :=
  match uiGet s.uIgnores opName with
  | none => Except.ok uflag
  | some (some c) =>
    if c.isEmpty then Except.ok true
    else
      (evaluate env s c
        [("arg", Value.vint arg), ("stack", Value.vlist s.stack)]).map pyTruthy
  | some none => Except.ok true

/-- `_WashningMashing.step` (`vm.py` lines 87-107).  The result is
`(frame, fault?)`; an exception escaping `step` itself (a decode
error, or an `unsafe_ignores` guard blowing up) is `Except.error`.
On a handler fault the frame is whatever the handler left behind
(its counter untouched); on success the counter advances to
`next_opcode()` evaluated on the post-handler frame. -/
def stepEx (env : Env) (s : Frame) (uflag : Bool) :
    Except HostExc (Frame × Option Fault) :=
  match currentOpcode s with
  | Except.error e => Except.error e
  | Except.ok (op, arg) =>
    let opName := opname op
    match effUnsafe env s opName arg uflag with
    | Except.error e => Except.error e
    | Except.ok u =>
      match handlers opName with
      | none => Except.ok (s, some Fault.unknownOpcode)
      | some h =>
        match h env arg u s with
        | (s₁, Except.error VMExc.ugate) => Except.ok (s₁, some Fault.ugate)
        | (s₁, Except.error (VMExc.host e)) => Except.ok (s₁, some (Fault.wrapped e))
        | (s₁, Except.ok _) =>
          match nextOpcode s₁ with
          | Except.error e => Except.error e
          | Except.ok c => Except.ok ({ s₁ with counter := c }, none)

/-- `_WashningMashing.is_breakpoint(addr)` (`vm.py` lines 119-129):
not registered → `False`; a registered non-empty condition is
evaluated with ALL evaluation errors swallowed as `False`; a falsy
condition means unconditional → `True`. -/
def isBreakpoint (env : Env) (s : Frame) (addr : Option Int) : Bool :=
  let a := addr.getD s.counter
  match bpGet s.breakpoints a with
  | none => false
  | some (some c) =>
    if c.isEmpty then true
    else
      match evaluate env s c [] with
      | Except.ok v => pyTruthy v
      | Except.error _ => false
  | some none => true

/-- Outcome of `cont`: a fault from `step`, a breakpoint stop
(`return None` in the source), or out of fuel (the source's
`while True` still running). -/
inductive ContRes where
  | fault (e : Fault) (s : Frame)
  | stop (s : Frame)
  | fuelOut (s : Frame)

/-- `_WashningMashing.cont` (`vm.py` lines 109-114), with fuel for
the unbounded `while True`:

    while True:
        if err := self.step(unsafe=unsafe): return err
        if self.is_breakpoint(): return None
-/
def contE (env : Env) (uflag : Bool) : Nat → Frame → Except HostExc ContRes
  | 0, s => Except.ok (ContRes.fuelOut s)
  | Nat.succ n, s =>
    match stepEx env s uflag with
    | Except.error e => Except.error e
    | Except.ok (s₁, some f) => Except.ok (ContRes.fault f s₁)
    | Except.ok (s₁, none) =>
      if isBreakpoint env s₁ none then Except.ok (ContRes.stop s₁)
      else contE env uflag n s₁

/-- `cont` instrumented with the number of successfully completed
steps (the source does not count; this is the same recursion as
`contE`, carrying `k`). -/
def contCount (env : Env) (uflag : Bool) :
    Nat → Frame → Nat → Except HostExc (ContRes × Nat)
  | 0, s, k => Except.ok (ContRes.fuelOut s, k)
  | Nat.succ n, s, k =>
    match stepEx env s uflag with
    | Except.error e => Except.error e
    | Except.ok (s₁, some f) => Except.ok (ContRes.fault f s₁, k)
    | Except.ok (s₁, none) =>
      if isBreakpoint env s₁ none then Except.ok (ContRes.stop s₁, k + 1)
      else contCount env uflag n s₁ (k + 1)

/-- `__init__`'s `self.builtins = builtins or {}` seen from the
store (`vm.py` line 81): a non-empty (truthy) dict is stored as-is
— the child aliases the very same object — while an empty (falsy)
dict is replaced by a FRESH `{}`, a new store cell.  Returns the
child's reference and the store as extended. -/
def builtinsOrFresh (bst : List (PyDict Value)) (r : Nat) :
    Nat × List (PyDict Value) :=
  if ((bst.get? r).getD []).isEmpty then (bst.length, bst ++ [[]])
  else (r, bst)

/-- `_WashningMashing.call(argc)` (`vm.py` lines 137-157).  Takes
the live builtins store and returns `(child, caller, store)` where
`caller` is the caller frame as mutated by the pops: in the source
the child's `parent` attribute references exactly that object, so
the pair stands for the child plus its parent link.  The child gets
fresh empty stack/breakpoints/ignores (`__init__`), locals from
`dict(zip(code.co_varnames, arguments))`, globals from
`self.locals | self.globals` (a Python dict union: on duplicate
keys the RIGHT operand — the caller's globals — wins), builtins
from `self.builtins or {}` (`builtinsOrFresh`: the same reference
only when the caller's dict is non-empty), and the caller's version
(`CrossVM.__init__`).  The returned store is the one any later
`Env` must carry. -/
def call (bst : List (PyDict Value)) (s : Frame) (argcIn : Option Nat) :
    Except HostExc (Frame × Frame × List (PyDict Value)) :=
  let argcE : Except HostExc Nat :=
    match argcIn with
    | some a => Except.ok a
    | none => (currentOpcode s).map Prod.snd
  match argcE with
  | Except.error e => Except.error e
  | Except.ok argc =>
    match pyGetIdx s.stack (-(argc : Int) - 1) with
    | Except.error e => Except.error e
    | Except.ok (Value.vfunc f) =>
      let arguments := pySliceFrom s.stack (-(argc : Int))
      let s := if argc != 0
        then { s with stack := pyDelSliceFrom s.stack (-(argc : Int)) } else s
      match s.stack.getLast? with
      | none => Except.error HostExc.indexError
      | some _ =>
        -- `fn = self.stack.pop()`; the subsequent
        -- `assert isinstance(fn, types.FunctionType)` holds for the
        -- value checked above.
        let s := { s with stack := s.stack.dropLast }
        let code := f.fcode
        let arguments := arguments ++
          defaultsSlice f.fdefaults code.co_argcount arguments.length
        let locals := dictZip code.co_varnames arguments
        let child : Frame :=
          { code := code
          , counter := 0
          , stack := []
          , locals := locals
          , globals := dictUnion s.locals s.globals
          , builtinsRef := (builtinsOrFresh bst s.builtinsRef).1
          , breakpoints := []
          , uIgnores := []
          , version := s.version }
        Except.ok (child, s, (builtinsOrFresh bst s.builtinsRef).2)
    | Except.ok _ => Except.error (HostExc.typeError "not a function")

/-- `_WashningMashing.return_call` (`vm.py` lines 159-163), with
the parent link passed explicitly (see `call`): no parent → return
self unchanged; otherwise pop our top of stack, append it to the
parent's stack and return the parent as the new current frame. -/
def returnCall (s : Frame) : Option Frame → Except HostExc Frame
  | none => Except.ok s
  | some p => do
    let v ← match s.stack.getLast? with
      | some v => pure v
      | none => Except.error HostExc.indexError
    Except.ok { p with stack := p.stack ++ [v] }

/-! ## Save/restore on an explicit object heap

`save` appends `(self.counter, self.stack.copy(), self.locals.copy(),
self.globals.copy())` and `restore(n)` does
`self.counter, self.stack, self.locals, self.globals =
self.savepoints[-n]` (`vm.py` lines 173-179).  The tuple holds
REFERENCES: `.copy()` allocates fresh objects at save time, but the
plain assignment in `restore` makes the frame's live attributes
alias the snapshot's objects.  Claims about this behaviour are
claims about Python reference semantics, so these two methods are
modelled on a machine with an explicit heap of list/dict objects;
in-place mutation writes through whichever cell the frame currently
references. -/

/-- A heap cell: a Python list object or dict object. -/
inductive HObj where
  | lst (xs : List Value)
  | dct (d : PyDict Value)

/-- Frame state relevant to save/restore: the counter (an immutable
int, held directly) and references to the three mutable objects,
plus the snapshot stack of `(counter, stackref, localsref,
globalsref)` tuples. -/
structure HFrame where
  counter : Int
  stackR : Nat
  localsR : Nat
  globalsR : Nat
  savepoints : List (Int × Nat × Nat × Nat)

/-- The machine: heap plus frame. -/
structure HMachine where
  heap : List HObj
  fr : HFrame

/-- Dereference a list cell. -/
def heapList (h : List HObj) (r : Nat) : List Value :=
  match h.get? r with
  | some (HObj.lst xs) => xs
  | _ => []

/-- Dereference a dict cell. -/
def heapDict (h : List HObj) (r : Nat) : PyDict Value :=
  match h.get? r with
  | some (HObj.dct d) => d
  | _ => []

/-- The observable state of the frame: counter and the CONTENTS of
the three referenced objects. -/
def derefState (m : HMachine) : Int × List Value × PyDict Value × PyDict Value :=
  ( m.fr.counter
  , heapList m.heap m.fr.stackR
  , heapDict m.heap m.fr.localsR
  , heapDict m.heap m.fr.globalsR )

/-- `save()`: allocate fresh copies of stack/locals/globals and push
a snapshot tuple referencing them. -/
def hmSave (m : HMachine) : HMachine :=
  let n := m.heap.length
  { heap := m.heap ++
      [ HObj.lst (heapList m.heap m.fr.stackR)
      , HObj.dct (heapDict m.heap m.fr.localsR)
      , HObj.dct (heapDict m.heap m.fr.globalsR) ]
  , fr := { m.fr with
      savepoints := m.fr.savepoints ++ [(m.fr.counter, n, n + 1, n + 2)] } }

/-- `restore(n)`: rebind the live attributes to the objects of
`self.savepoints[-n]` — WITHOUT copying and WITHOUT popping the
snapshot. -/
def hmRestore (n : Nat) (m : HMachine) : Except HostExc HMachine :=
  match pyGetIdx m.fr.savepoints (-(n : Int)) with
  | Except.error e => Except.error e
  | Except.ok (c, rs, rl, rg) =>
    Except.ok { m with fr :=
      { m.fr with counter := c, stackR := rs, localsR := rl, globalsR := rg } }

/-- Mutations of counter/stack/locals/globals as the debugger
performs them between snapshots: writing the counter rebinds an
int; the others mutate the referenced object IN PLACE.  (`pop` is
`dropLast`, a no-op on an empty stack; the raising path of
`list.pop` plays no role in the snapshot claims.) -/
inductive Mut where
  | push (v : Value)
  | pop
  | setLocal (k : String) (v : Value)
  | setGlobal (k : String) (v : Value)
  | setCounter (c : Int)

/-- Apply one mutation. -/
def applyMut (m : HMachine) : Mut → HMachine
  | Mut.push v =>
    { m with heap := m.heap.set m.fr.stackR (HObj.lst (heapList m.heap m.fr.stackR ++ [v])) }
  | Mut.pop =>
    { m with heap := m.heap.set m.fr.stackR (HObj.lst (heapList m.heap m.fr.stackR).dropLast) }
  | Mut.setLocal k v =>
    { m with heap := m.heap.set m.fr.localsR (HObj.dct (dictSet (heapDict m.heap m.fr.localsR) k v)) }
  | Mut.setGlobal k v =>
    { m with heap := m.heap.set m.fr.globalsR (HObj.dct (dictSet (heapDict m.heap m.fr.globalsR) k v)) }
  | Mut.setCounter c =>
    { m with fr := { m.fr with counter := c } }

/-- Apply a sequence of mutations. -/
def applyMuts (μ : List Mut) (m : HMachine) : HMachine :=
  μ.foldl applyMut m

/-- Well-formedness: the live references point into the heap. -/
def HWf (m : HMachine) : Prop :=
  m.fr.stackR < m.heap.length ∧ m.fr.localsR < m.heap.length ∧
    m.fr.globalsR < m.heap.length

instance (m : HMachine) : Decidable (HWf m) := by
  unfold HWf; infer_instance

/-! ## The textual assembler (`assembler.py`, `pys_assemble`)

The input is the `Code` tree `pys_parse` produces (directives,
`label` pseudo-directives, instructions whose argument is an `int`
literal, a raw string, or a nested `Code` block).  `ast.literal_eval`
allocates host objects; the constant pool deduplicates with `is`
(object IDENTITY), so the model pairs each literal with an object
id (`oid`) handed out by the `litEval` oracle — CPython details such
as small-int interning live inside the oracle. -/

mutual

/-- `Opcode.arg`: `Union[int, str, Code]`. -/
inductive PysArg where
  | anInt (n : Int)
  | aStr (s : String)
  | aCode (c : PysCode)

/-- A child of a `Code` node: a `Directive(name, value)` (labels are
`Directive("label", name)`) or an `Opcode(op, arg)`. -/
inductive PysNode where
  | directive (name value : String)
  | instr (op : Nat) (arg : PysArg)

/-- `Code`: its list of children (the parent link only matters while
parsing). -/
inductive PysCode where
  | mk (children : List PysNode)

end

/-- A constant-pool entry: a literal object (with its identity) or a
code object produced by a recursive `pys_assemble`. -/
inductive AsmConst where
  | lit (v : Value) (oid : Nat)
  | codeObj (bytecode : List Nat) (consts : List AsmConst)
      (names : List String) (flags : Nat) (cname : String)

/-- `x is value` for a pool entry against a fresh literal object:
identity of ids; a code object in the pool is never the same object
as a literal just returned by `ast.literal_eval`. -/
def constIs : AsmConst → Nat → Bool
  | AsmConst.lit _ oid, oid' => oid == oid'
  | _, _ => false

/-- The `for i, x in enumerate(..): if ..: break` search: index of
the first list element satisfying the test. -/
def firstIdx {α} (p : α → Bool) : List α → Option Nat
  | [] => none
  | a :: as => if p a then some 0 else (firstIdx p as).map (· + 1)

/-- The oracle for `ast.literal_eval`: the parsed value and the id
of the returned host object. -/
structure AsmEnv where
  litEval : String → Except HostExc (Value × Nat)

/-- `CompilerFlags` (`compat.py`): flag name → bit. -/
def compilerFlags : List (String × Nat) :=
  [ ("OPTIMIZED", 1), ("NEWLOCALS", 2), ("VARARGS", 4), ("VARKEYWORDS", 8)
  , ("NESTED", 16), ("GENERATOR", 32), ("NOFREE", 64), ("COROUTINE", 128)
  , ("ITERABLE_COROUTINE", 256), ("ASYNC_GENERATOR", 512)
  , ("FUTURE_DIVISION", 131072), ("FUTURE_ABSOLUTE_IMPORT", 262144)
  , ("FUTURE_WITH_STATEMENT", 524288), ("FUTURE_PRINT_FUNCTION", 1048576)
  , ("FUTURE_UNICODE_LITERALS", 2097152), ("FUTURE_BARRY_AS_BDFL", 4194304)
  , ("FUTURE_GENERATOR_STOP", 8388608), ("FUTURE_ANNOTATIONS", 16777216)
  ]

/-- Mutable state of one `pys_assemble` invocation. -/
structure AsmSt where
  bytecode : List Nat
  constants : List AsmConst
  names : List String
  flags : Nat
  cname : String
  labels : PyDict Nat
  deferred : PyDict (List Nat)
  extras : PyDict Value

/-- `bytearray.append(x)`: `ValueError` outside `0..255`. -/
def bappI (l : List Nat) (x : Int) : Except HostExc (List Nat) :=
  if 0 ≤ x ∧ x ≤ 255 then Except.ok (l ++ [x.toNat])
  else Except.error (HostExc.valueError "byte must be in range(0, 256)")

/-- `bytearray` item assignment `l[i] = x`. -/
def bsetI (l : List Nat) (i : Nat) (x : Nat) : Except HostExc (List Nat) :=
  if x ≤ 255 then
    if i < l.length then Except.ok (l.set i x)
    else Except.error HostExc.indexError
  else Except.error (HostExc.valueError "byte must be in range(0, 256)")

/-- The `opcode.hasconst` branch for a raw-string operand
(`assembler.py` lines 169-177): `ast.literal_eval` the text, reuse
the first pool slot that `is` the resulting object, else append a
new slot and emit its index. -/
def emitConst (env : AsmEnv) (st : AsmSt) (text : String) :
    Except HostExc AsmSt :=
  match env.litEval text with
  | Except.error e => Except.error e
  | Except.ok (v, oid) =>
    match firstIdx (fun x => constIs x oid) st.constants with
    | some i =>
      match bappI st.bytecode i with
      | Except.error e => Except.error e
      | Except.ok bc => Except.ok { st with bytecode := bc }
    | none =>
      let cs := st.constants ++ [AsmConst.lit v oid]
      match bappI st.bytecode ((cs.length : Int) - 1) with
      | Except.error e => Except.error e
      | Except.ok bc => Except.ok { st with constants := cs, bytecode := bc }

/-- The `opcode.hasname` branch (`assembler.py` lines 178-183):
value-equality lookup in `co_names`, else append. -/
def emitName (st : AsmSt) (text : String) : Except HostExc AsmSt :=
  match firstIdx (fun x => x == text) st.names with
  | some i =>
    match bappI st.bytecode i with
    | Except.error e => Except.error e
    | Except.ok bc => Except.ok { st with bytecode := bc }
  | none =>
    let ns := st.names ++ [text]
    match bappI st.bytecode ((ns.length : Int) - 1) with
    | Except.error e => Except.error e
    | Except.ok bc => Except.ok { st with names := ns, bytecode := bc }

/-- The `opcode.hasjabs` branch (`assembler.py` lines 184-190). -/
def emitJabs (st : AsmSt) (text : String) : Except HostExc AsmSt :=
  match dictGet st.labels text with
  | some address => do
    let bc ← bappI st.bytecode address
    Except.ok { st with bytecode := bc }
  | none => do
    let d := dictSet st.deferred text ((dictGet st.deferred text).getD [] ++ [st.bytecode.length])
    let bc ← bappI st.bytecode 0
    Except.ok { st with deferred := d, bytecode := bc }

/-- `label:` processing (`assembler.py` lines 148-151): record
`len(bytecode) // 2` and patch every deferred reference. -/
def emitLabel (st : AsmSt) (name : String) : Except HostExc AsmSt := do
  let address := st.bytecode.length / 2
  let ls := dictSet st.labels name address
  let patches := (dictGet st.deferred name).getD []
  let bc ← patches.foldlM (fun bc i => bsetI bc i address) st.bytecode
  Except.ok { st with labels := ls, bytecode := bc }

/-- `.flags a|b|c` (`assembler.py` lines 152-154): OR the named
`CompilerFlags` bits together; an unknown name is a `KeyError`. -/
def emitFlags (st : AsmSt) (value : String) : Except HostExc AsmSt := do
  let fl ← (value.splitOn "|").foldlM
    (fun acc flag =>
      match dictGet compilerFlags flag with
      | some v => Except.ok (acc ||| v)
      | none => Except.error (HostExc.exc ("KeyError: " ++ flag)))
    st.flags
  Except.ok { st with flags := fl }

/-- The names of `code_args` keys settable by a plain directive
(`assembler.py` lines 125-142, minus the ones with dedicated
branches above). -/
def codeArgKeys : List String :=
  [ "argcount", "posonlyargcount", "kwonlyargcount", "nlocals"
  , "stacksize", "codestring", "constants", "names", "varnames"
  , "filename", "firstlineno", "linetable", "freevars", "cellvars"
  ]

/-- What `pys_assemble` returns, restricted to the fields the loop
actually writes (the remaining `CodeType` fields come verbatim from
directives and play no part in any claim). -/
structure AsmOut where
  bytecode : List Nat
  constants : List AsmConst
  names : List String
  flags : Nat
  cname : String

mutual

/-- One iteration of the `for n in node.children` loop of
`pys_assemble` (`assembler.py` lines 146-192).  `fuel` bounds the
recursion into nested `@code:` blocks only; any fuel larger than
the nesting depth gives the source behaviour. -/
def asmChild (env : AsmEnv) (fuel : Nat) (st : AsmSt) :
    PysNode → Except HostExc AsmSt
  | PysNode.directive nm value =>
    if nm == "label" then emitLabel st value
    else if nm == "flags" then emitFlags st value
    else if nm == "name" then Except.ok { st with cname := value }
    else if codeArgKeys.contains nm then do
      let (v, _) ← env.litEval value
      Except.ok { st with extras := dictSet st.extras nm v }
    else Except.error (HostExc.valueError ("unknown directive " ++ nm ++ " " ++ value))
  | PysNode.instr op arg => do
    let bc ← bappI st.bytecode op
    let st := { st with bytecode := bc }
    match arg with
    | PysArg.anInt n => do
      let bc ← bappI st.bytecode n
      Except.ok { st with bytecode := bc }
    | PysArg.aStr text =>
      if hasconst.contains op then emitConst env st text
      else if hasname.contains op then emitName st text
      else if hasjabs.contains op then emitJabs st text
      else Except.error (HostExc.valueError ("Can't parse opcode " ++ toString op))
    | PysArg.aCode c =>
      if hasconst.contains op then
        match fuel with
        | 0 => Except.error (HostExc.exc "nesting fuel exhausted")
        | Nat.succ fuel' => do
          let sub ← pysAssembleF env fuel' c "<pys_assemble>" "<module>"
          let cs := st.constants ++
            [AsmConst.codeObj sub.bytecode sub.constants sub.names sub.flags sub.cname]
          -- the source appends `len(bytecode) - 1` here, NOT
          -- `len(constants) - 1` (`assembler.py` line 168)
          let bc ← bappI st.bytecode ((st.bytecode.length : Int) - 1)
          Except.ok { st with constants := cs, bytecode := bc }
      else if hasname.contains op then
        -- `n.arg in code_args["names"]` with a `Code` dataclass:
        -- never equal to a string, so the code would append the
        -- tree object itself into `co_names`; outside the modelled
        -- (string) name table, treated as a construction error.
        Except.error (HostExc.typeError "Code object in name table")
      else if hasjabs.contains op then
        Except.error (HostExc.exc "AssertionError")
      else Except.error (HostExc.valueError ("Can't parse opcode " ++ toString op))

/-- The loop of `pys_assemble` over all children. -/
def asmChildren (env : AsmEnv) (fuel : Nat) (st : AsmSt) :
    List PysNode → Except HostExc AsmSt
  | [] => Except.ok st
  | n :: rest => do
    let st' ← asmChild env fuel st n
    asmChildren env fuel st' rest

/-- `pys_assemble(node, filename, name)` (`assembler.py` lines
122-197). -/
def pysAssembleF (env : AsmEnv) (fuel : Nat) :
    PysCode → String → String → Except HostExc AsmOut
  | PysCode.mk children, _, nm => do
    let st0 : AsmSt :=
      { bytecode := [], constants := [], names := [], flags := 0
      , cname := nm, labels := [], deferred := [], extras := [] }
    let st ← asmChildren env fuel st0 children
    Except.ok
      { bytecode := st.bytecode, constants := st.constants
      , names := st.names, flags := st.flags, cname := st.cname }

end

/-! ## Concrete fixtures used by witnesses and counterexamples -/

/-- An inert host context: no builtins beyond one empty dict, and
oracles that refuse; the fixture programs never reach them. -/
def env0 : Env :=
  { builtinsStore := [[]]
  , evalFn := fun _ _ => Except.error (HostExc.exc "no eval")
  , callFn := fun _ _ => Except.error (HostExc.exc "no host call") }

/-- A fixed-width (3.10) version tuple, `tuple(sys.version_info)`. -/
def v310 : PyVersion :=
  [VC.num 3, VC.num 10, VC.num 0, VC.txt "final", VC.num 0]

/-- A one-instruction program: `BINARY_ADD` (opcode 23). -/
def code23 : CodeRec := CodeRec.mk [23, 0] [] [] [] 0 0 "<module>"

/-- A frame addressing `BINARY_ADD` with an EMPTY operand stack. -/
def fr23 : Frame :=
  { code := code23, counter := 0, stack := [], locals := [], globals := []
  , builtinsRef := 0, breakpoints := [], uIgnores := [], version := v310 }

/-- The same program with two integers on the stack. -/
def fr23s : Frame :=
  { fr23 with stack := [Value.vint 1, Value.vint 2] }

/-- A program of two `NOP`s with (unconditional) breakpoints
registered at BOTH addresses 0 and 2. -/
def frNN : Frame :=
  { code := CodeRec.mk [9, 0, 9, 0] [] [] [] 0 0 "<module>"
  , counter := 0, stack := [], locals := [], globals := []
  , builtinsRef := 0, breakpoints := [(0, none), (2, none)], uIgnores := []
  , version := v310 }

/-- A frame whose current opcode byte (0) has no handler. -/
def frBad : Frame :=
  { code := CodeRec.mk [0, 0] [] [] [] 0 0 "<module>"
  , counter := 0, stack := [], locals := [], globals := []
  , builtinsRef := 0, breakpoints := [], uIgnores := [], version := v310 }

/-- A two-argument function value for the C8 witness. -/
def fv8 : FuncRec :=
  FuncRec.mk (CodeRec.mk [] [] [] ["a", "b"] 2 0 "f") [] "f" []

/-- A caller frame whose stack holds `[7, fv8, 1, 2]` — base `[7]`,
then the callee and its two arguments. -/
def F8 : Frame :=
  { code := code23, counter := 0
  , stack := [Value.vint 7, Value.vfunc fv8, Value.vint 1, Value.vint 2]
  , locals := [], globals := [], builtinsRef := 0, breakpoints := []
  , uIgnores := [], version := v310 }

/-- A builtins store whose cell 0 (the one `F8` references) is
non-empty, so the child of a `call` shares it. -/
def bst8 : List (PyDict Value) := [[("len", Value.vint 0)]]

/-- An assembler oracle for the C5 input (no literals occur). -/
def asmEnv0 : AsmEnv := ⟨fun _ => Except.error (HostExc.exc "no literal")⟩

/-- The C5 failing input: `NOP` followed by `LOAD_CONST@code: f`
(a nested block whose body is just the implicit name directive). -/
def c5input : PysCode := PysCode.mk
  [ PysNode.instr 9 (PysArg.anInt 0)
  , PysNode.instr 100 (PysArg.aCode (PysCode.mk [PysNode.directive "name" "f"]))
  ]

/-- What the assembler produces on `c5input`. -/
def c5out : AsmOut :=
  { bytecode := [9, 0, 100, 2]
  , constants := [AsmConst.codeObj [] [] [] 0 "f"]
  , names := [], flags := 0, cname := "<module>" }

/-! ## C2 — version lookup in `read_pyc` -/

/-- C2.  The claim says the decoder returns the marker of the
greatest registered magic ≤ the file's magic, an exact registry key
yielding its own marker and the smallest valid magic (3000) the
first entry's marker.  The code instead breaks out of the walk
BEFORE assigning when `magic <= k`: magic 3370 (the fixed-width
registry key itself) decodes to the previous marker `(3, 0, 0)`
rather than `FIXED_WIDTH_OPCODES`, and magic 3000 — accepted by the
code's own validity check — leaves `version` unbound, so `read_pyc`
dies with `UnboundLocalError`.  The spec function `specPycVersion`
gives the intended answers at both inputs. -/
theorem c2_version_lookup_bug :
    readPycVersion 3370 = Except.ok [VC.num 3, VC.num 0, VC.num 0] ∧
    specPycVersion 3370 = some FIXED_WIDTH_OPCODES ∧
    [VC.num 3, VC.num 0, VC.num 0] ≠ FIXED_WIDTH_OPCODES ∧
    readPycVersion 3000 = Except.error PycErr.unboundVersion ∧
    specPycVersion 3000 = some [VC.num 3, VC.num 0, VC.num 0] := by
  refine ⟨rfl, rfl, ?_, rfl, rfl⟩
  decide

/-! ## C5 — operand indices emitted by the assembler -/

/-- C5.  The claim demands every table-targeting operand be in
range, explicitly including the operand of an instruction whose
nested `@code:` block went into the constant pool.  The nested-code
branch of `pys_assemble` appends `len(bytecode) - 1` — the current
BYTECODE offset — instead of `len(constants) - 1` (the sibling
literal branch uses the pool length): assembling `NOP` +
`LOAD_CONST@code: f` emits operand 2 while the constant pool has a
single entry (only index 0 valid). -/
theorem c5_nested_code_operand_out_of_range :
    pysAssembleF asmEnv0 2 c5input "<pys_assemble>" "<module>" = Except.ok c5out ∧
    c5out.bytecode = [9, 0, 100, 2] ∧
    c5out.constants.length = 1 ∧
    ¬ (2 < c5out.constants.length) := by
  refine ⟨rfl, rfl, rfl, ?_⟩
  decide

/-! ## C7 — instruction width vs version -/

/-- C7.  `next_opcode(i)`: below the `FIXED_WIDTH_OPCODES`
threshold, `i + 1` for a no-operand opcode (byte below
`opcode.HAVE_ARGUMENT`) and `i + 3` for an operand-bearing one; at
or above the threshold, always `i + 2`. -/
theorem c7_next_opcode_width (s : Frame) (i : Int) (op : Nat)
    (hop : pyGetIdx s.code.co_code i = Except.ok op) :
    (pyVerLt s.version FIXED_WIDTH_OPCODES = Except.ok true →
      nextOpcodeAt s i = Except.ok (if op < HAVE_ARGUMENT then i + 1 else i + 3)) ∧
    (pyVerLt s.version FIXED_WIDTH_OPCODES = Except.ok false →
      nextOpcodeAt s i = Except.ok (i + 2)) := by
  refine ⟨fun hv => ?_, fun hv => ?_⟩
  · unfold nextOpcodeAt
    rw [hop, hv]
    show (if op < HAVE_ARGUMENT then Except.pure (i + 1) else Except.pure (i + 3) : Except HostExc Int) = _
    split <;> rfl
  · unfold nextOpcodeAt
    rw [hop, hv]
    rfl

/-- Witness for C7 at concrete frames: under a pre-fixed-width
version `(3, 0, 0)`, the operand-bearing `LOAD_CONST` (byte 100 ≥
90) has width 3 and the no-operand `BINARY_ADD` (byte 23 < 90)
width 1; under 3.10 the width is always 2. -/
theorem c7_next_opcode_width_witness :
    (pyGetIdx (CodeRec.mk [100, 0, 0] [] [] [] 0 0 "m").co_code 0 = Except.ok 100) ∧
    nextOpcodeAt
      { fr23 with code := CodeRec.mk [100, 0, 0] [] [] [] 0 0 "m"
                , version := [VC.num 3, VC.num 0, VC.num 0] } 0 = Except.ok 3 ∧
    nextOpcodeAt { fr23 with version := [VC.num 3, VC.num 0, VC.num 0] } 0 = Except.ok 1 ∧
    nextOpcodeAt fr23 0 = Except.ok 2 := by
  refine ⟨rfl, ?_, ?_, ?_⟩
  · have h := (c7_next_opcode_width
      { fr23 with code := CodeRec.mk [100, 0, 0] [] [] [] 0 0 "m"
                , version := [VC.num 3, VC.num 0, VC.num 0] } 0 100 rfl).1 rfl
    simpa [HAVE_ARGUMENT] using h
  · have h := (c7_next_opcode_width
      { fr23 with version := [VC.num 3, VC.num 0, VC.num 0] } 0 23 rfl).1 rfl
    simpa [HAVE_ARGUMENT] using h
  · have h := (c7_next_opcode_width fr23 0 23 rfl).2 rfl
    simpa using h

/-! ## Evaluating `call` on a stack of the shape
`base ++ [function] ++ args` -/

/-- `l[-(len(args)) - 1]` on `base ++ v :: args` picks out `v`
(used for `self.stack[-argc - 1]` and `self.savepoints[-n]`). -/
lemma pyGetIdx_mid {α} (base : List α) (v : α) (args : List α) :
    pyGetIdx (base ++ v :: args) (-(args.length : Int) - 1) = Except.ok v := by
  have hlen : ((base ++ v :: args).length : Int) =
      (base.length : Int) + (args.length : Int) + 1 := by
    simp [List.length_append]
    omega
  have h0 : (-(args.length : Int) - 1) < 0 := by omega
  have h1 : (0 : Int) ≤ (-(args.length : Int) - 1) + (base ++ v :: args).length := by
    rw [hlen]; omega
  have h2 : ((-(args.length : Int) - 1) + (base ++ v :: args).length).toNat
      = base.length := by
    rw [hlen]
    omega
  have h3 : (base ++ v :: args).get? base.length = some v := by
    rw [List.get?_eq_getElem?, List.getElem?_append_right (le_refl _)]
    simp
  unfold pyGetIdx pyIdx
  rw [if_pos h0, if_pos h1, h2]
  split
  next x j hj =>
    cases hj
    rw [h3] at *
  next x hj =>
    cases hj

/-- `del self.stack[-argc:]` with `argc = len(args) ≠ 0` keeps
`base ++ [v]`. -/
lemma pyDelSliceFrom_mid (base : List Value) (v : Value) (args : List Value)
    (hne : args ≠ []) :
    pyDelSliceFrom (base ++ v :: args) (-(args.length : Int)) = base ++ [v] := by
  have hpos : 0 < args.length := List.length_pos.mpr hne
  have hlen : ((base ++ v :: args).length : Int) =
      (base.length : Int) + (args.length : Int) + 1 := by
    simp [List.length_append]
    omega
  have h0 : (-(args.length : Int)) < 0 := by omega
  have h1 : ¬ ((-(args.length : Int)) + (base ++ v :: args).length < 0) := by
    rw [hlen]; omega
  have h2 : ((-(args.length : Int)) + (base ++ v :: args).length).toNat
      = base.length + 1 := by
    rw [hlen]; omega
  unfold pyDelSliceFrom pySliceBound
  rw [if_pos h0, if_neg h1, h2]
  rw [List.take_append_eq_append_take]
  have : base.length + 1 - base.length = 1 := by omega
  rw [List.take_of_length_le (by omega), this]
  simp

/-- Full evaluation of `call(argc)` on a well-shaped stack: the
child frame, the caller as mutated (fn and arguments popped), and
the builtins store as `__init__`'s `builtins or {}` leaves it. -/
lemma call_eval (bst : List (PyDict Value)) (base : List Value) (fv : FuncRec)
    (args : List Value) (F : Frame)
    (hs : F.stack = base ++ Value.vfunc fv :: args) :
    call bst F (some args.length) = Except.ok
      ( { code := fv.fcode
        , counter := 0
        , stack := []
        , locals := dictZip fv.fcode.co_varnames
            (pySliceFrom F.stack (-(args.length : Int)) ++
              defaultsSlice fv.fdefaults fv.fcode.co_argcount
                (pySliceFrom F.stack (-(args.length : Int))).length)
        , globals := dictUnion F.locals F.globals
        , builtinsRef := (builtinsOrFresh bst F.builtinsRef).1
        , breakpoints := []
        , uIgnores := []
        , version := F.version }
      , { F with stack := base }
      , (builtinsOrFresh bst F.builtinsRef).2 ) := by
  have hget : pyGetIdx F.stack (-(args.length : Int) - 1) = Except.ok (Value.vfunc fv) := by
    rw [hs]; exact pyGetIdx_mid base _ args
  simp only [call, hget]
  by_cases hargs : args = []
  · subst hargs
    have hstack : F.stack = base ++ [Value.vfunc fv] := by simpa using hs
    simp only [List.length_nil, bne_self_eq_false, Bool.false_eq_true, if_false,
      hstack, List.getLast?_concat, List.dropLast_concat]
  · have hbne : (args.length != 0) = true := by
      have h := List.length_pos.mpr hargs
      simp only [bne_iff_ne, ne_eq]
      omega
    have hdel : pyDelSliceFrom F.stack (-(args.length : Int)) = base ++ [Value.vfunc fv] := by
      rw [hs]; exact pyDelSliceFrom_mid base _ args hargs
    simp only [hbne, if_true, hdel, List.getLast?_concat, List.dropLast_concat]

/-- C8.  `call(N)` on `F` with stack `base ++ [fn] ++ args`
(`|args| = N`) followed by `return_call()` on the resulting child —
whose top of stack holds the return value `v` — gives back exactly
the caller frame with stack `base ++ [v]`: one element more than
`base`, the stack before the function value and arguments were
pushed. -/
theorem c8_call_return_symmetry (bst : List (PyDict Value)) (base : List Value)
    (fv : FuncRec) (args : List Value) (N : Nat) (F : Frame)
    (hs : F.stack = base ++ Value.vfunc fv :: args)
    (hN : args.length = N) :
    ∃ child bst',
      call bst F (some N) = Except.ok (child, { F with stack := base }, bst') ∧
      (∀ (rest : List Value) (v : Value),
        returnCall { child with stack := rest ++ [v] } (some { F with stack := base })
          = Except.ok { F with stack := base ++ [v] } ∧
        (base ++ [v]).length = base.length + 1) := by
  subst hN
  refine ⟨_, _, call_eval bst base fv args F hs, ?_⟩
  intro rest v
  constructor
  · simp [returnCall, List.getLast?_concat]
  · simp

/-- Call/return round trip at the concrete frame `F8`. -/
theorem c8_call_return_symmetry_witness :
    ∃ child bst',
      call bst8 F8 (some 2)
        = Except.ok (child, { F8 with stack := [Value.vint 7] }, bst') ∧
      (∀ (rest : List Value) (v : Value),
        returnCall { child with stack := rest ++ [v] }
            (some { F8 with stack := [Value.vint 7] })
          = Except.ok { F8 with stack := [Value.vint 7] ++ [v] } ∧
        ([Value.vint 7] ++ [v]).length = [Value.vint 7].length + 1) :=
  c8_call_return_symmetry bst8 [Value.vint 7] fv8 [Value.vint 1, Value.vint 2] 2
    F8 rfl rfl

/-! ## Dict lemmas for C3 -/

lemma dictGet_cons {α} (k₀ : String) (v₀ : α) (rest : PyDict α) (k : String) :
    dictGet ((k₀, v₀) :: rest) k = if k₀ == k then some v₀ else dictGet rest k := by
  by_cases h : (k₀ == k) = true <;> simp [dictGet, List.find?_cons, h]

lemma dictGet_set {α} (d : PyDict α) (k : String) (v : α) (k' : String) :
    dictGet (dictSet d k v) k' = if k' == k then some v else dictGet d k' := by
  induction d with
  | nil =>
    rw [show dictSet ([] : PyDict α) k v = [(k, v)] from rfl, dictGet_cons]
    by_cases h : k' = k
    · simp [beq_iff_eq, h]
    · have h2 : ¬ (k = k') := fun hh => h hh.symm
      simp [dictGet, beq_iff_eq, h, h2]
  | cons hd tl ih =>
    obtain ⟨k₀, v₀⟩ := hd
    rw [show dictSet ((k₀, v₀) :: tl) k v
        = if k₀ == k then (k₀, v) :: tl else (k₀, v₀) :: dictSet tl k v from rfl]
    by_cases h₀ : k₀ = k
    · subst h₀
      simp only [beq_self_eq_true, if_true]
      rw [dictGet_cons, dictGet_cons]
      by_cases h' : k' = k₀
      · simp [beq_iff_eq, h']
      · have h2 : ¬ (k₀ = k') := fun hh => h' hh.symm
        simp [beq_iff_eq, h', h2]
    · have h₀b : (k₀ == k) = false := by simp [beq_iff_eq, h₀]
      rw [h₀b]
      simp only [Bool.false_eq_true, if_false]
      rw [dictGet_cons, ih, dictGet_cons]
      by_cases h' : k' = k <;> by_cases h₀' : k₀ = k'
      · exact absurd (h₀'.trans h') h₀
      · simp [beq_iff_eq, h', h₀', h₀]
      · simp [beq_iff_eq, h', h₀', h₀]
      · simp [beq_iff_eq, h', h₀', h₀]

lemma dictGet_none_of_not_mem {α} (d : PyDict α) (k : String)
    (h : k ∉ d.map Prod.fst) : dictGet d k = none := by
  induction d with
  | nil => rfl
  | cons hd tl ih =>
    obtain ⟨k₀, v₀⟩ := hd
    simp only [List.map_cons, List.mem_cons] at h
    push_neg at h
    rw [dictGet_cons, if_neg]
    · exact ih h.2
    · simp [beq_iff_eq]
      exact fun hh => h.1 hh.symm

/-- Writing an association list over `init` with `dictSet`, when the
written keys are absent: lookups fall through to `init`. -/
lemma dictGet_foldl_set_none {α} (l : List (String × α)) (init : PyDict α)
    (k : String) (h : dictGet l k = none) :
    dictGet (l.foldl (fun acc kv => dictSet acc kv.1 kv.2) init) k
      = dictGet init k := by
  induction l generalizing init with
  | nil => rfl
  | cons hd tl ih =>
    obtain ⟨k₀, v₀⟩ := hd
    rw [dictGet_cons] at h
    by_cases h₀ : (k₀ == k) = true
    · rw [if_pos h₀] at h; cases h
    · rw [if_neg h₀] at h
      rw [List.foldl_cons, ih _ h, dictGet_set, if_neg]
      simp [beq_iff_eq] at h₀ ⊢
      exact fun hh => h₀ hh.symm

/-- With `Nodup` keys, writing an association list over `init` makes
its own bindings win. -/
lemma dictGet_foldl_set_some {α} (l : List (String × α)) (init : PyDict α)
    (k : String) (v : α) (hnd : (l.map Prod.fst).Nodup)
    (h : dictGet l k = some v) :
    dictGet (l.foldl (fun acc kv => dictSet acc kv.1 kv.2) init) k = some v := by
  induction l generalizing init with
  | nil => cases h
  | cons hd tl ih =>
    obtain ⟨k₀, v₀⟩ := hd
    simp only [List.map_cons, List.nodup_cons] at hnd
    rw [dictGet_cons] at h
    by_cases h₀ : (k₀ == k) = true
    · rw [if_pos h₀] at h
      cases h
      have hk : k = k₀ := by
        have := (beq_iff_eq (a := k₀) (b := k)).mp h₀
        exact this.symm
      have htl : dictGet tl k = none := by
        apply dictGet_none_of_not_mem
        rw [hk]
        exact hnd.1
      rw [List.foldl_cons, dictGet_foldl_set_none _ _ _ htl, dictGet_set, if_pos]
      simp [beq_iff_eq, hk]
    · rw [if_neg h₀] at h
      rw [List.foldl_cons]
      exact ih _ hnd.2 h

/-- Python dict union lookup, right side winning (`a | b`). -/
lemma dictGet_union_right {α} (a b : PyDict α) (k : String) (v : α)
    (hnd : (b.map Prod.fst).Nodup) (h : dictGet b k = some v) :
    dictGet (dictUnion a b) k = some v :=
  dictGet_foldl_set_some b a k v hnd h

/-- Python dict union lookup falling through to the left side. -/
lemma dictGet_union_left {α} (a b : PyDict α) (k : String)
    (h : dictGet b k = none) :
    dictGet (dictUnion a b) k = dictGet a k :=
  dictGet_foldl_set_none b a k h

/-- `keys.zip` truncates at the left list. -/
lemma zip_append_left {α β} (keys : List α) (l₂ l₃ : List β)
    (h : keys.length ≤ l₂.length) :
    keys.zip (l₂ ++ l₃) = keys.zip l₂ := by
  induction keys generalizing l₂ with
  | nil => simp
  | cons k ks ih =>
    cases l₂ with
    | nil => simp at h
    | cons x xs =>
      simp only [List.cons_append, List.zip_cons_cons, List.cons.injEq]
      exact ⟨trivial, ih xs (by simpa using h)⟩

/-- The keys of `keys.zip vals` are a prefix of `keys`. -/
lemma map_fst_zip_take {α β} (keys : List α) (vals : List β) :
    (keys.zip vals).map Prod.fst = keys.take vals.length := by
  induction keys generalizing vals with
  | nil => simp
  | cons k ks ih =>
    cases vals with
    | nil => simp
    | cons v vs => simp [ih]

/-- Positional lookup in a zipped association list with `Nodup`
keys. -/
lemma dictGet_zip_pos {α} (keys : List String) (vals : List α) (i : Nat)
    (hnd : keys.Nodup) (hik : i < keys.length) (hiv : i < vals.length) :
    dictGet (keys.zip vals) (keys.getD i "") = vals.get? i := by
  induction keys generalizing vals i with
  | nil => simp at hik
  | cons k ks ih =>
    cases vals with
    | nil => simp at hiv
    | cons v vs =>
      simp only [List.nodup_cons] at hnd
      cases i with
      | zero =>
        simp [List.zip_cons_cons, dictGet_cons]
      | succ j =>
        have hjk : j < ks.length := by simpa using hik
        have hjv : j < vs.length := by simpa using hiv
        have hmem : ks.getD j "" ∈ ks := by
          rw [List.getD_eq_getElem?_getD, List.getElem?_eq_getElem hjk]
          exact List.getElem_mem hjk
        rw [List.zip_cons_cons, show (k :: ks).getD (j + 1) "" = ks.getD j "" from rfl,
          dictGet_cons, if_neg]
        · exact ih vs j hnd.2 hjk hjv
        · simp only [beq_iff_eq]
          exact fun hh => hnd.1 (hh ▸ hmem)

/-- `self.stack[-argc:]` with `argc = len(args) ≠ 0` selects exactly
the arguments. -/
lemma pySliceFrom_mid (base : List Value) (v : Value) (args : List Value)
    (hne : args ≠ []) :
    pySliceFrom (base ++ v :: args) (-(args.length : Int)) = args := by
  have hpos : 0 < args.length := List.length_pos.mpr hne
  have hlen : ((base ++ v :: args).length : Int) =
      (base.length : Int) + (args.length : Int) + 1 := by
    simp [List.length_append]
    omega
  have h0 : (-(args.length : Int)) < 0 := by omega
  have h1 : ¬ ((-(args.length : Int)) + (base ++ v :: args).length < 0) := by
    rw [hlen]; omega
  have h2 : ((-(args.length : Int)) + (base ++ v :: args).length).toNat
      = base.length + 1 := by
    rw [hlen]; omega
  unfold pySliceFrom pySliceBound
  rw [if_pos h0, if_neg h1, h2]
  rw [show base.length + 1 = (base ++ [v]).length by simp,
    show base ++ v :: args = (base ++ [v]) ++ args by simp,
    List.drop_left]

/-! ## C3 — child frame construction in `call` -/

/-- The C3 caller: `x` is bound in BOTH the caller's locals (to 1)
and the caller's globals (to 2); the stack holds one function. -/
def frC3 : Frame :=
  { code := CodeRec.mk [] [] [] [] 0 0 "<module>"
  , counter := 0
  , stack := [Value.vfunc (FuncRec.mk (CodeRec.mk [] [] [] [] 0 0 "f") [] "f" [])]
  , locals := [("x", Value.vint 1)]
  , globals := [("x", Value.vint 2)]
  , builtinsRef := 0, breakpoints := [], uIgnores := [], version := v310 }

/-- An empty builtins store (so every frame's builtins dict is
empty — the debugger's own default, `CrossVM(code)`). -/
def bstE : List (PyDict Value) := []

/-- A two-parameter callee for the C3 witness. -/
def fvW : FuncRec :=
  FuncRec.mk (CodeRec.mk [] [] [] ["a", "b"] 2 0 "f") [] "f" []

/-- The C3 witness caller: locals `x=1, y=7`, globals `x=2`, stack
`[fvW, 10, 11]`, builtins reference 0. -/
def FW : Frame :=
  { code := CodeRec.mk [] [] [] [] 0 0 "<module>"
  , counter := 0
  , stack := [Value.vfunc fvW, Value.vint 10, Value.vint 11]
  , locals := [("x", Value.vint 1), ("y", Value.vint 7)]
  , globals := [("x", Value.vint 2)]
  , builtinsRef := 0, breakpoints := [], uIgnores := [], version := v310 }

/-- A builtins store whose cell 0 (the one `FW` references) is
non-empty, so a `call` from `FW` over it shares the cell. -/
def bstW : List (PyDict Value) := [[("len", Value.vint 0)]]

/-- C3 counterexample.  The claim says a name present in both the
caller's locals and globals resolves to the caller's LOCAL value in
the child's globals ("locals take precedence").  The code builds the
child's globals as `self.locals | self.globals`, and in a Python
dict union the RIGHT operand wins: the child sees the caller's
GLOBAL value 2, not the local value 1. -/
theorem c3_locals_precedence_counterexample :
    (call bstE frC3 (some 0)).map (fun p => dictGet p.1.globals "x")
      = Except.ok (some (Value.vint 2)) ∧
    dictGet frC3.locals "x" = some (Value.vint 1) ∧
    some (Value.vint 2) ≠ some (Value.vint 1) := by
  refine ⟨rfl, rfl, ?_⟩
  simp

/-- C3 as amended.  `call(argc)` with a function and its `argc`
arguments on the stack builds a child frame whose locals are the
parameter bindings (here for a full application with distinct
parameter names), whose globals are the caller's locals merged with
the caller's globals with the CALLER'S GLOBALS taking precedence on
names bound in both (a name only in the caller's locals still maps
to the caller's local value), and whose builtins mapping is shared
by reference with the caller exactly when the caller's builtins
dict is NON-EMPTY: `__init__`'s `builtins or {}` replaces a falsy
(empty) dict by a fresh empty dict — a new store cell, equal but
not identical. -/
theorem c3_child_frame_amended (bst : List (PyDict Value)) (F : Frame)
    (base : List Value) (fv : FuncRec) (args : List Value) (N : Nat)
    (hs : F.stack = base ++ Value.vfunc fv :: args)
    (hN : args.length = N)
    (hargc : fv.fcode.co_argcount = N)
    (hvn : fv.fcode.co_varnames.length = N)
    (hnodupV : fv.fcode.co_varnames.Nodup)
    (hnodupG : (F.globals.map Prod.fst).Nodup) :
    ∃ child caller bst',
      call bst F (some N) = Except.ok (child, caller, bst') ∧
      (∀ i, i < N →
        dictGet child.locals (fv.fcode.co_varnames.getD i "") = args.get? i) ∧
      (∀ k v, dictGet F.globals k = some v → dictGet child.globals k = some v) ∧
      (∀ k, dictGet F.globals k = none →
        dictGet child.globals k = dictGet F.locals k) ∧
      (((bst.get? F.builtinsRef).getD []).isEmpty = false →
        child.builtinsRef = F.builtinsRef ∧ bst' = bst) ∧
      (((bst.get? F.builtinsRef).getD []).isEmpty = true →
        child.builtinsRef = bst.length ∧ bst' = bst ++ [[]] ∧
        (bst'.get? child.builtinsRef).getD [] = []) := by
  subst hN
  refine ⟨_, _, _, call_eval bst base fv args F hs, ?_, ?_, ?_, ?_, ?_⟩
  · intro i hi
    by_cases hargs : args = []
    · exfalso
      subst hargs
      simp at hi
    · have hA : pySliceFrom F.stack (-(args.length : Int)) = args := by
        rw [hs]; exact pySliceFrom_mid base _ args hargs
      rw [hA]
      have hzip : fv.fcode.co_varnames.zip
          (args ++ defaultsSlice fv.fdefaults fv.fcode.co_argcount args.length)
          = fv.fcode.co_varnames.zip args :=
        zip_append_left _ _ _ (by omega)
      have hznd : ((fv.fcode.co_varnames.zip
          (args ++ defaultsSlice fv.fdefaults fv.fcode.co_argcount args.length)).map
            Prod.fst).Nodup := by
        rw [map_fst_zip_take]
        exact hnodupV.sublist (List.take_sublist _ _)
      have hpos : dictGet (fv.fcode.co_varnames.zip args)
          (fv.fcode.co_varnames.getD i "") = args.get? i :=
        dictGet_zip_pos _ args i hnodupV (by omega) (by omega)
      have ha : args.get? i = some (args.get ⟨i, hi⟩) := List.get?_eq_get hi
      rw [ha] at hpos
      show dictGet (dictZip _ _) _ = _
      unfold dictZip
      rw [dictGet_foldl_set_some _ _ _ _ hznd (by rw [hzip]; exact hpos), ha]
  · intro k v hv
    exact dictGet_union_right _ _ _ _ hnodupG hv
  · intro k hk
    exact dictGet_union_left _ _ _ hk
  · intro hne
    have hc : ¬ (((bst.get? F.builtinsRef).getD []).isEmpty = true) := by
      rw [hne]
      exact Bool.false_ne_true
    unfold builtinsOrFresh
    rw [if_neg hc]
    exact ⟨rfl, rfl⟩
  · intro hem
    unfold builtinsOrFresh
    rw [if_pos hem]
    refine ⟨rfl, rfl, ?_⟩
    show ((bst ++ [[]]).get? bst.length).getD [] = []
    rw [List.get?_eq_getElem?, List.getElem?_concat_length]
    rfl

/-- Witness for C3 (amended) at a concrete call: caller locals
`x=1, y=7`, caller globals `x=2`; callee `f(a, b)` invoked with
arguments 10, 11.  The child binds `a=10, b=11`, its globals give
`x=2` (caller's global wins) and `y=7` (caller-local only).  The
theorem is applied over a store whose referenced builtins dict is
non-empty (sharing) and over the empty store (fresh cell). -/
theorem c3_child_frame_amended_witness :
    (∃ child caller bst',
      call bstW FW (some 2) = Except.ok (child, caller, bst') ∧
      (∀ i, i < 2 →
        dictGet child.locals (fvW.fcode.co_varnames.getD i "")
          = [Value.vint 10, Value.vint 11].get? i) ∧
      (∀ k v, dictGet FW.globals k = some v → dictGet child.globals k = some v) ∧
      (∀ k, dictGet FW.globals k = none →
        dictGet child.globals k = dictGet FW.locals k) ∧
      (((bstW.get? FW.builtinsRef).getD []).isEmpty = false →
        child.builtinsRef = FW.builtinsRef ∧ bst' = bstW) ∧
      (((bstW.get? FW.builtinsRef).getD []).isEmpty = true →
        child.builtinsRef = bstW.length ∧ bst' = bstW ++ [[]] ∧
        (bst'.get? child.builtinsRef).getD [] = [])) ∧
    (∃ child caller bst',
      call bstE FW (some 2) = Except.ok (child, caller, bst') ∧
      (∀ i, i < 2 →
        dictGet child.locals (fvW.fcode.co_varnames.getD i "")
          = [Value.vint 10, Value.vint 11].get? i) ∧
      (∀ k v, dictGet FW.globals k = some v → dictGet child.globals k = some v) ∧
      (∀ k, dictGet FW.globals k = none →
        dictGet child.globals k = dictGet FW.locals k) ∧
      (((bstE.get? FW.builtinsRef).getD []).isEmpty = false →
        child.builtinsRef = FW.builtinsRef ∧ bst' = bstE) ∧
      (((bstE.get? FW.builtinsRef).getD []).isEmpty = true →
        child.builtinsRef = bstE.length ∧ bst' = bstE ++ [[]] ∧
        (bst'.get? child.builtinsRef).getD [] = [])) :=
  ⟨c3_child_frame_amended bstW FW [] fvW [Value.vint 10, Value.vint 11] 2
      rfl rfl rfl rfl (by decide) (by decide),
    c3_child_frame_amended bstE FW [] fvW [Value.vint 10, Value.vint 11] 2
      rfl rfl rfl rfl (by decide) (by decide)⟩

/-! ## C4 — save/restore on the heap machine -/

/-- One mutation never changes the live references or the snapshot
stack; only the counter or the referenced heap cells. -/
lemma applyMut_refs (m : HMachine) (x : Mut) :
    (applyMut m x).fr.stackR = m.fr.stackR ∧
    (applyMut m x).fr.localsR = m.fr.localsR ∧
    (applyMut m x).fr.globalsR = m.fr.globalsR ∧
    (applyMut m x).fr.savepoints = m.fr.savepoints := by
  cases x <;> exact ⟨rfl, rfl, rfl, rfl⟩

/-- `l.set` leaves other indices alone. -/
lemma get?_set_ne {α} (l : List α) (i j : Nat) (v : α) (h : i ≠ j) :
    (l.set i v).get? j = l.get? j := by
  rw [List.get?_eq_getElem?, List.get?_eq_getElem?]
  exact List.getElem?_set_ne h

/-- One mutation only writes through the live references. -/
lemma applyMut_heap (m : HMachine) (x : Mut) (i : Nat)
    (h1 : i ≠ m.fr.stackR) (h2 : i ≠ m.fr.localsR) (h3 : i ≠ m.fr.globalsR) :
    (applyMut m x).heap.get? i = m.heap.get? i := by
  cases x <;>
    simp only [applyMut] <;>
    first
      | rfl
      | exact get?_set_ne _ _ _ _ (fun hh => h1 hh.symm)
      | exact get?_set_ne _ _ _ _ (fun hh => h2 hh.symm)
      | exact get?_set_ne _ _ _ _ (fun hh => h3 hh.symm)

/-- A mutation sequence keeps the references and snapshots, and
leaves every heap cell not referenced by the frame untouched. -/
lemma applyMuts_spec (μ : List Mut) (m : HMachine) :
    (applyMuts μ m).fr.stackR = m.fr.stackR ∧
    (applyMuts μ m).fr.localsR = m.fr.localsR ∧
    (applyMuts μ m).fr.globalsR = m.fr.globalsR ∧
    (applyMuts μ m).fr.savepoints = m.fr.savepoints ∧
    (∀ i, i ≠ m.fr.stackR → i ≠ m.fr.localsR → i ≠ m.fr.globalsR →
      (applyMuts μ m).heap.get? i = m.heap.get? i) := by
  induction μ generalizing m with
  | nil => exact ⟨rfl, rfl, rfl, rfl, fun _ _ _ _ => rfl⟩
  | cons x μ' ih =>
    obtain ⟨hr1, hr2, hr3, hr4⟩ := applyMut_refs m x
    obtain ⟨ih1, ih2, ih3, ih4, ih5⟩ := ih (applyMut m x)
    refine ⟨by rw [applyMuts, List.foldl_cons]; rw [show List.foldl applyMut (applyMut m x) μ' = applyMuts μ' (applyMut m x) from rfl, ih1, hr1],
      ?_, ?_, ?_, ?_⟩
    · rw [applyMuts, List.foldl_cons,
        show List.foldl applyMut (applyMut m x) μ' = applyMuts μ' (applyMut m x) from rfl,
        ih2, hr2]
    · rw [applyMuts, List.foldl_cons,
        show List.foldl applyMut (applyMut m x) μ' = applyMuts μ' (applyMut m x) from rfl,
        ih3, hr3]
    · rw [applyMuts, List.foldl_cons,
        show List.foldl applyMut (applyMut m x) μ' = applyMuts μ' (applyMut m x) from rfl,
        ih4, hr4]
    · intro i h1 h2 h3
      rw [applyMuts, List.foldl_cons,
        show List.foldl applyMut (applyMut m x) μ' = applyMuts μ' (applyMut m x) from rfl,
        ih5 i (hr1 ▸ h1) (hr2 ▸ h2) (hr3 ▸ h3)]
      exact applyMut_heap m x i h1 h2 h3

/-- The snapshot cells allocated by `hmSave`. -/
lemma hmSave_heap_cells (m : HMachine) :
    (hmSave m).heap.get? m.heap.length
        = some (HObj.lst (heapList m.heap m.fr.stackR)) ∧
    (hmSave m).heap.get? (m.heap.length + 1)
        = some (HObj.dct (heapDict m.heap m.fr.localsR)) ∧
    (hmSave m).heap.get? (m.heap.length + 2)
        = some (HObj.dct (heapDict m.heap m.fr.globalsR)) := by
  refine ⟨?_, ?_, ?_⟩ <;>
    · show (m.heap ++ _).get? _ = _
      rw [List.get?_eq_getElem?, List.getElem?_append_right (by omega)]
      simp

/-- C4 as amended.  `save()` followed by ANY sequence of mutations
of counter/stack/locals/globals and then `restore(1)` restores
exactly the state at `save()` time, the snapshot remains on the
snapshot stack, and an immediate second `restore(1)` (no mutations
in between) is idempotent.  (What the original claim adds — that a
second `restore(1)` after FURTHER mutations also returns the saved
state — fails: `restore` aliases the live stack/locals/globals with
the snapshot objects, so those further in-place mutations write
through into the snapshot; see the counterexample.) -/
theorem c4_save_restore_amended (m : HMachine) (hwf : HWf m) (μ : List Mut) :
    ∃ m₂, hmRestore 1 (applyMuts μ (hmSave m)) = Except.ok m₂ ∧
      derefState m₂ = derefState m ∧
      m₂.fr.savepoints = (hmSave m).fr.savepoints ∧
      hmRestore 1 m₂ = Except.ok m₂ := by
  obtain ⟨hw1, hw2, hw3⟩ := hwf
  obtain ⟨hs1, hs2, hs3, hs4, hs5⟩ := applyMuts_spec μ (hmSave m)
  have hsp : (applyMuts μ (hmSave m)).fr.savepoints
      = m.fr.savepoints ++ [(m.fr.counter, m.heap.length, m.heap.length + 1, m.heap.length + 2)] := by
    rw [hs4]; rfl
  have hget : pyGetIdx (applyMuts μ (hmSave m)).fr.savepoints (-((1 : Nat) : Int))
      = Except.ok (m.fr.counter, m.heap.length, m.heap.length + 1, m.heap.length + 2) := by
    rw [hsp]
    have h := pyGetIdx_mid m.fr.savepoints
      (m.fr.counter, m.heap.length, m.heap.length + 1, m.heap.length + 2) []
    simpa using h
  obtain ⟨hc1, hc2, hc3⟩ := hmSave_heap_cells m
  have hheap : ∀ j, m.heap.length ≤ j →
      (applyMuts μ (hmSave m)).heap.get? j = (hmSave m).heap.get? j := by
    intro j hj
    have e1 : (hmSave m).fr.stackR = m.fr.stackR := rfl
    have e2 : (hmSave m).fr.localsR = m.fr.localsR := rfl
    have e3 : (hmSave m).fr.globalsR = m.fr.globalsR := rfl
    exact hs5 j (by rw [e1]; omega) (by rw [e2]; omega) (by rw [e3]; omega)
  refine ⟨{ applyMuts μ (hmSave m) with fr :=
    { (applyMuts μ (hmSave m)).fr with
        counter := m.fr.counter
      , stackR := m.heap.length
      , localsR := m.heap.length + 1
      , globalsR := m.heap.length + 2 } }, ?_, ?_, ?_, ?_⟩
  · unfold hmRestore
    rw [hget]
  · have e1 : (applyMuts μ (hmSave m)).heap.get? m.heap.length
        = some (HObj.lst (heapList m.heap m.fr.stackR)) := by
      rw [hheap m.heap.length (le_refl _)]; exact hc1
    have e2 : (applyMuts μ (hmSave m)).heap.get? (m.heap.length + 1)
        = some (HObj.dct (heapDict m.heap m.fr.localsR)) := by
      rw [hheap (m.heap.length + 1) (by omega)]; exact hc2
    have e3 : (applyMuts μ (hmSave m)).heap.get? (m.heap.length + 2)
        = some (HObj.dct (heapDict m.heap m.fr.globalsR)) := by
      rw [hheap (m.heap.length + 2) (by omega)]; exact hc3
    unfold derefState heapList heapDict
    simp only [e1, e2, e3]
    rfl
  · exact hs4
  · unfold hmRestore
    rw [show ({ applyMuts μ (hmSave m) with fr :=
      { (applyMuts μ (hmSave m)).fr with
          counter := m.fr.counter
        , stackR := m.heap.length
        , localsR := m.heap.length + 1
        , globalsR := m.heap.length + 2 } } : HMachine).fr.savepoints
      = (applyMuts μ (hmSave m)).fr.savepoints from rfl, hget]

/-- The concrete machine for the C4 scenario: empty stack, empty
locals and globals, no snapshots yet. -/
def m4c : HMachine :=
  { heap := [HObj.lst [], HObj.dct [], HObj.dct []]
  , fr := { counter := 0, stackR := 0, localsR := 1, globalsR := 2, savepoints := [] } }

/-- C4 counterexample.  `save()`; push 1; `restore(1)` (correctly
yields the saved empty stack); push 2 — a further mutation — then a
second `restore(1)`: the claim says this again yields the empty
save-time stack, but the restored stack ALIASES the snapshot, so
the second restore yields `[2]`. -/
theorem c4_restore_aliasing_counterexample :
    ((hmRestore 1 (applyMut (hmSave m4c) (Mut.push (Value.vint 1)))).bind
        (fun m3 => hmRestore 1 (applyMut m3 (Mut.push (Value.vint 2))))).map
        (fun m5 => heapList m5.heap m5.fr.stackR)
      = Except.ok [Value.vint 2] ∧
    heapList m4c.heap m4c.fr.stackR = ([] : List Value) ∧
    [Value.vint 2] ≠ ([] : List Value) := by
  refine ⟨rfl, rfl, ?_⟩
  simp

/-! ## C9 — constant/name de-duplication in the assembler -/

/-- A found index is in range. -/
lemma firstIdx_lt_length {α} (p : α → Bool) (l : List α) (j : Nat)
    (h : firstIdx p l = some j) : j < l.length := by
  induction l generalizing j with
  | nil => cases h
  | cons a as ih =>
    have hlen : (a :: as).length = as.length + 1 := rfl
    unfold firstIdx at h
    by_cases hp : p a = true
    · rw [if_pos hp] at h
      cases h
      omega
    · rw [if_neg hp] at h
      cases hfi : firstIdx p as with
      | none => rw [hfi] at h; cases h
      | some j' =>
        rw [hfi] at h
        have h2 : some (j' + 1) = some j := h
        cases h2
        have hj' := ih j' hfi
        omega

/-- C9.  The `hasconst` branch reuses an existing constant slot if
and only if some existing pool entry `is` (same object identity,
`constIs`) the literal object produced by `ast.literal_eval` — two
equal but non-identical literals get separate slots — while the
`hasname` branch reuses a name slot whenever an existing entry is
EQUAL as a string.  In the reuse case the pool/table is unchanged
and the emitted operand is the index of the first matching entry;
otherwise a new slot is appended and its index emitted. -/
theorem c9_dedup_identity_vs_equality (env : AsmEnv) (st : AsmSt)
    (text : String) (v : Value) (oid : Nat)
    (hlit : env.litEval text = Except.ok (v, oid))
    (hcb : st.constants.length ≤ 255)
    (hnb : st.names.length ≤ 255) :
    ((∀ j, firstIdx (fun x => constIs x oid) st.constants = some j →
        emitConst env st text = Except.ok { st with bytecode := st.bytecode ++ [j] }) ∧
     (firstIdx (fun x => constIs x oid) st.constants = none →
        emitConst env st text = Except.ok
          { st with constants := st.constants ++ [AsmConst.lit v oid]
                  , bytecode := st.bytecode ++ [st.constants.length] })) ∧
    ((∀ j, firstIdx (fun x => x == text) st.names = some j →
        emitName st text = Except.ok { st with bytecode := st.bytecode ++ [j] }) ∧
     (firstIdx (fun x => x == text) st.names = none →
        emitName st text = Except.ok
          { st with names := st.names ++ [text]
                  , bytecode := st.bytecode ++ [st.names.length] })) := by
  refine ⟨⟨?_, ?_⟩, ⟨?_, ?_⟩⟩
  · intro j hj
    have hjl : j < st.constants.length := firstIdx_lt_length _ _ _ hj
    simp only [emitConst, hlit, hj, bappI]
    rw [if_pos (by constructor <;> omega)]
    simp
  · intro hnone
    simp only [emitConst, hlit, hnone, bappI]
    have hl : ((st.constants ++ [AsmConst.lit v oid]).length : Int) - 1
        = (st.constants.length : Int) := by
      simp
    rw [hl, if_pos (by constructor <;> omega)]
    simp
  · intro j hj
    have hjl : j < st.names.length := firstIdx_lt_length _ _ _ hj
    simp only [emitName, hj, bappI]
    rw [if_pos (by constructor <;> omega)]
    simp
  · intro hnone
    simp only [emitName, hnone, bappI]
    have hl : ((st.names ++ [text]).length : Int) - 1
        = (st.names.length : Int) := by
      simp
    rw [hl, if_pos (by constructor <;> omega)]
    simp

/-- The C9 witness oracle: `ast.literal_eval("1000")` returns the
integer-1000 object with identity 42. -/
def c9env : AsmEnv :=
  ⟨fun t =>
    if t = "1000" then Except.ok (Value.vint 1000, 42)
    else Except.error (HostExc.exc "no literal")⟩

/-- The C9 witness state: the pool already holds TWO equal `1000`
literals with distinct identities 41 and 42 (equal by value, not
the same object); the name table holds `"x"` and `"1000"`. -/
def c9st : AsmSt :=
  { bytecode := [100]
  , constants := [AsmConst.lit (Value.vint 1000) 41, AsmConst.lit (Value.vint 1000) 42]
  , names := ["x", "1000"], flags := 0, cname := "<module>"
  , labels := [], deferred := [], extras := [] }

/-- Witness for C9: the constant emitter reuses slot 1 — the entry
that IS the evaluated object — not the merely-equal slot 0, while
the name emitter reuses slot 1 of the name table by plain string
equality. -/
theorem c9_dedup_identity_vs_equality_witness :
    c9env.litEval "1000" = Except.ok (Value.vint 1000, 42) ∧
    firstIdx (fun x => constIs x 42) c9st.constants = some 1 ∧
    firstIdx (fun x => x == "1000") c9st.names = some 1 ∧
    emitConst c9env c9st "1000" = Except.ok { c9st with bytecode := [100, 1] } ∧
    emitName c9st "1000" = Except.ok { c9st with bytecode := [100, 1] } := by
  refine ⟨rfl, rfl, rfl, ?_, ?_⟩
  · have h := (c9_dedup_identity_vs_equality c9env c9st "1000" (Value.vint 1000) 42
      rfl (by decide) (by decide)).1.1 1 rfl
    simpa using h
  · have h := (c9_dedup_identity_vs_equality c9env c9st "1000" (Value.vint 1000) 42
      rfl (by decide) (by decide)).2.1 1 rfl
    simpa using h

/-- Witness for C4 (amended) at the concrete machine and a two-push
mutation sequence. -/
theorem c4_save_restore_amended_witness :
    HWf m4c ∧
    ∃ m₂, hmRestore 1 (applyMuts [Mut.push (Value.vint 1), Mut.setCounter 4]
        (hmSave m4c)) = Except.ok m₂ ∧
      derefState m₂ = derefState m4c ∧
      m₂.fr.savepoints = (hmSave m4c).fr.savepoints ∧
      hmRestore 1 m₂ = Except.ok m₂ :=
  ⟨by decide, c4_save_restore_amended m4c (by decide)
    [Mut.push (Value.vint 1), Mut.setCounter 4]⟩

/-! ## C10 — `cont` steps before consulting breakpoints -/

/-- Unfolding `contCount` one iteration when the step errors out. -/
lemma contCount_succ_err (env : Env) (uflag : Bool) (n : Nat) (s : Frame)
    (k₀ : Nat) (e : HostExc) (hst : stepEx env s uflag = Except.error e) :
    contCount env uflag (Nat.succ n) s k₀ = Except.error e := by
  rw [show contCount env uflag (Nat.succ n) s k₀
      = (match stepEx env s uflag with
        | Except.error e => Except.error e
        | Except.ok (s₁, some f) => Except.ok (ContRes.fault f s₁, k₀)
        | Except.ok (s₁, none) =>
          if isBreakpoint env s₁ none then Except.ok (ContRes.stop s₁, k₀ + 1)
          else contCount env uflag n s₁ (k₀ + 1)) from rfl, hst]

/-- Unfolding `contCount` one iteration when the step faults. -/
lemma contCount_succ_fault (env : Env) (uflag : Bool) (n : Nat) (s s₁ : Frame)
    (k₀ : Nat) (f : Fault) (hst : stepEx env s uflag = Except.ok (s₁, some f)) :
    contCount env uflag (Nat.succ n) s k₀ = Except.ok (ContRes.fault f s₁, k₀) := by
  rw [show contCount env uflag (Nat.succ n) s k₀
      = (match stepEx env s uflag with
        | Except.error e => Except.error e
        | Except.ok (s₁, some f) => Except.ok (ContRes.fault f s₁, k₀)
        | Except.ok (s₁, none) =>
          if isBreakpoint env s₁ none then Except.ok (ContRes.stop s₁, k₀ + 1)
          else contCount env uflag n s₁ (k₀ + 1)) from rfl, hst]

/-- Unfolding `contCount` one iteration when the step succeeds. -/
lemma contCount_succ_ok (env : Env) (uflag : Bool) (n : Nat) (s s₁ : Frame)
    (k₀ : Nat) (hst : stepEx env s uflag = Except.ok (s₁, none)) :
    contCount env uflag (Nat.succ n) s k₀
      = (if isBreakpoint env s₁ none then Except.ok (ContRes.stop s₁, k₀ + 1)
         else contCount env uflag n s₁ (k₀ + 1)) := by
  rw [show contCount env uflag (Nat.succ n) s k₀
      = (match stepEx env s uflag with
        | Except.error e => Except.error e
        | Except.ok (s₁, some f) => Except.ok (ContRes.fault f s₁, k₀)
        | Except.ok (s₁, none) =>
          if isBreakpoint env s₁ none then Except.ok (ContRes.stop s₁, k₀ + 1)
          else contCount env uflag n s₁ (k₀ + 1)) from rfl, hst]

/-- A `stop` returned by the instrumented `cont` always happened
after at least one more completed step than the entry tally, at a
state whose address satisfies `is_breakpoint`. -/
lemma contCount_stop (env : Env) (uflag : Bool) :
    ∀ (n : Nat) (s : Frame) (k₀ : Nat) (s' : Frame) (k : Nat),
      contCount env uflag n s k₀ = Except.ok (ContRes.stop s', k) →
      k₀ < k ∧ isBreakpoint env s' none = true := by
  intro n
  induction n with
  | zero =>
    intro s k₀ s' k h
    rw [show contCount env uflag 0 s k₀ = Except.ok (ContRes.fuelOut s, k₀) from rfl] at h
    cases h
  | succ n ih =>
    intro s k₀ s' k h
    cases hst : stepEx env s uflag with
    | error e => rw [contCount_succ_err env uflag n s k₀ e hst] at h; cases h
    | ok p =>
      obtain ⟨s₁, f?⟩ := p
      cases f? with
      | some f => rw [contCount_succ_fault env uflag n s s₁ k₀ f hst] at h; cases h
      | none =>
        rw [contCount_succ_ok env uflag n s s₁ k₀ hst] at h
        by_cases hbp : isBreakpoint env s₁ none = true
        · rw [if_pos hbp] at h
          injection h with h2
          injection h2 with h3 h4
          cases h3
          exact ⟨by omega, hbp⟩
        · rw [if_neg hbp] at h
          have hk := ih s₁ (k₀ + 1) s' k h
          exact ⟨by omega, hk.2⟩

/-- C10.  `cont` executes at least one instruction before checking
for a breakpoint: even when the CURRENT counter is a registered
(here unconditional) breakpoint address and the instruction there
steps without fault, `cont` does not stop at the starting address —
it continues from the post-step state, consulting `is_breakpoint`
only there — and any stop it ever reports lies at a breakpoint
address reached after at least one completed step. -/
theorem c10_cont_steps_before_break (env : Env) (uflag : Bool) (n : Nat)
    (s s₁ : Frame)
    (hbp : isBreakpoint env s none = true)
    (hstep : stepEx env s uflag = Except.ok (s₁, none)) :
    contE env uflag (n + 1) s
      = (if isBreakpoint env s₁ none then Except.ok (ContRes.stop s₁)
         else contE env uflag n s₁) ∧
    (∀ s' k, contCount env uflag (n + 1) s 0 = Except.ok (ContRes.stop s', k) →
      1 ≤ k ∧ isBreakpoint env s' none = true) := by
  constructor
  · rw [show contE env uflag (n + 1) s
        = (match stepEx env s uflag with
          | Except.error e => Except.error e
          | Except.ok (s₁, some f) => Except.ok (ContRes.fault f s₁)
          | Except.ok (s₁, none) =>
            if isBreakpoint env s₁ none then Except.ok (ContRes.stop s₁)
            else contE env uflag n s₁) from rfl, hstep]
  · intro s' k h
    have hc := contCount_stop env uflag (n + 1) s 0 s' k h
    exact ⟨by omega, hc.2⟩

/-- Witness for C10: the two-`NOP` program with unconditional
breakpoints at addresses 0 and 2; starting at address 0 (itself a
breakpoint), `cont` runs the `NOP` and stops at address 2, after
one step. -/
theorem c10_cont_steps_before_break_witness :
    isBreakpoint env0 frNN none = true ∧
    stepEx env0 frNN false = Except.ok ({ frNN with counter := 2 }, none) ∧
    (contE env0 false 5 frNN
      = (if isBreakpoint env0 { frNN with counter := 2 } none
         then Except.ok (ContRes.stop { frNN with counter := 2 })
         else contE env0 false 4 { frNN with counter := 2 }) ∧
    (∀ s' k, contCount env0 false 5 frNN 0 = Except.ok (ContRes.stop s', k) →
      1 ≤ k ∧ isBreakpoint env0 s' none = true)) :=
  ⟨rfl, rfl, c10_cont_steps_before_break env0 false 4 frNN { frNN with counter := 2 }
    rfl rfl⟩

/-! ## Handler analysis for C1 and C6

`Tame m`: the computation never touches the counter and never
raises `UnsafeOperation` — true of every handler BODY (the `_unsafe`
gate itself raises `UnsafeOperation`, and only the `JUMP_ABSOLUTE`
body writes the counter, and it cannot raise). -/

/-- A handler step that preserves the counter and never raises
`UnsafeOperation`. -/
def Tame {α : Type} (m : HStep α) : Prop :=
  ∀ s, ((m s).1).counter = s.counter ∧ (m s).2 ≠ Except.error VMExc.ugate

lemma tame_pure {α : Type} (a : α) : Tame (pure a : HStep α) := by
  intro s
  exact ⟨rfl, by simp [pure, Except.pure]⟩

lemma tame_bind {α β : Type} {m : HStep α} {f : α → HStep β}
    (hm : Tame m) (hf : ∀ a, Tame (f a)) : Tame (m >>= f) := by
  intro s
  cases hms : m s with
  | mk s' r =>
    cases r with
    | ok a =>
      have he : (m >>= f) s = f a s' := by
        show (match m s with
          | (s', Except.ok a) => f a s'
          | (s', Except.error e) => (s', Except.error e)) = f a s'
        rw [hms]
      rw [he]
      have h1 := (hm s).1
      rw [hms] at h1
      exact ⟨((hf a s').1).trans h1, (hf a s').2⟩
    | error e =>
      have he : (m >>= f) s = (s', Except.error e) := by
        show (match m s with
          | (s', Except.ok a) => f a s'
          | (s', Except.error e) => (s', Except.error e)) = (s', Except.error e)
        rw [hms]
      rw [he]
      have h1 := (hm s).1
      have h2 := (hm s).2
      rw [hms] at h1 h2
      have hne : e ≠ VMExc.ugate := fun hh => h2 (by rw [hh])
      exact ⟨h1, by simpa using hne⟩

lemma tame_hGet : Tame hGet := fun _ => ⟨rfl, by simp [hGet]⟩

lemma tame_hRaiseHost {α : Type} (e : HostExc) :
    Tame (hRaise (VMExc.host e) : HStep α) :=
  fun _ => ⟨rfl, by simp [hRaise]⟩

lemma tame_hLift {α : Type} (r : Except HostExc α) : Tame (hLift r) := by
  intro s
  cases r <;> simp [hLift]

lemma tame_hMapStack (f : List Value → List Value) : Tame (hMapStack f) :=
  fun _ => ⟨rfl, by simp [hMapStack]⟩

lemma tame_hPush (v : Value) : Tame (hPush v) := tame_hMapStack _

lemma tame_hPop : Tame hPop := by
  intro s
  cases h : s.stack.getLast? <;> simp [hPop, h]

lemma tame_hPopIdx (i : Int) : Tame (hPopIdx i) := by
  intro s
  cases h : pyPopIdx s.stack i with
  | ok p => obtain ⟨v, rest⟩ := p; simp [hPopIdx, h]
  | error e => simp [hPopIdx, h]

lemma tame_hGetIdx (i : Int) : Tame (hGetIdx i) := by
  intro s
  cases h : pyGetIdx s.stack i <;> simp [hGetIdx, h]

lemma tame_hSetIdx (i : Int) (v : Value) : Tame (hSetIdx i v) := by
  intro s
  cases h : pySetIdx s.stack i v <;> simp [hSetIdx, h]

lemma tame_hSetLocal (k : String) (v : Value) : Tame (hSetLocal k v) :=
  fun _ => ⟨rfl, by simp [hSetLocal]⟩

lemma tame_hSetGlobal (k : String) (v : Value) : Tame (hSetGlobal k v) :=
  fun _ => ⟨rfl, by simp [hSetGlobal]⟩

lemma tame_ite {α : Type} (c : Prop) [Decidable c] {m₁ m₂ : HStep α}
    (h₁ : Tame m₁) (h₂ : Tame m₂) : Tame (if c then m₁ else m₂) := by
  split <;> assumption

/-! ### Every handler body is tame -/

lemma tame_pop_top (env : Env) (arg : Nat) (u : Bool) : Tame (pop_top env arg u) :=
  tame_bind tame_hPop (fun _ => tame_pure _)

lemma tame_rot_two (env : Env) (arg : Nat) (u : Bool) : Tame (rot_two env arg u) :=
  tame_bind (tame_hGetIdx _) (fun _ =>
    tame_bind (tame_hGetIdx _) (fun _ => tame_hMapStack _))

lemma tame_rot_three (env : Env) (arg : Nat) (u : Bool) : Tame (rot_three env arg u) :=
  tame_bind (tame_hGetIdx _) (fun _ =>
    tame_bind tame_hGet (fun _ => tame_hMapStack _))

lemma tame_rot_four (env : Env) (arg : Nat) (u : Bool) : Tame (rot_four env arg u) :=
  tame_bind (tame_hGetIdx _) (fun _ =>
    tame_bind tame_hGet (fun _ => tame_hMapStack _))

lemma tame_dup_top (env : Env) (arg : Nat) (u : Bool) : Tame (dup_top env arg u) :=
  tame_bind (tame_hGetIdx _) (fun a => tame_hPush a)

lemma tame_dup_top_two (env : Env) (arg : Nat) (u : Bool) : Tame (dup_top_two env arg u) :=
  tame_bind tame_hGet (fun _ => tame_hMapStack _)

lemma tame_nop (env : Env) (arg : Nat) (u : Bool) : Tame (nop env arg u) :=
  tame_pure _

lemma tame_unary_positive (env : Env) (arg : Nat) (u : Bool) :
    Tame (unary_positive env arg u) :=
  tame_bind tame_hPop (fun _ => tame_bind (tame_hLift _) (fun r => tame_hPush r))

lemma tame_unary_negative (env : Env) (arg : Nat) (u : Bool) :
    Tame (unary_negative env arg u) :=
  tame_bind tame_hPop (fun _ => tame_bind (tame_hLift _) (fun r => tame_hPush r))

lemma tame_unary_not (env : Env) (arg : Nat) (u : Bool) :
    Tame (unary_not env arg u) :=
  tame_bind tame_hPop (fun v => tame_hPush _)

lemma tame_unary_invert (env : Env) (arg : Nat) (u : Bool) :
    Tame (unary_invert env arg u) :=
  tame_bind tame_hPop (fun _ => tame_bind (tame_hLift _) (fun r => tame_hPush r))

lemma tame_binHandler (f : Value → Value → Except HostExc Value)
    (env : Env) (arg : Nat) (u : Bool) : Tame (binHandler f env arg u) :=
  tame_bind (tame_hPopIdx _) (fun _ =>
    tame_bind tame_hPop (fun _ =>
      tame_bind (tame_hLift _) (fun r => tame_hPush r)))

lemma tame_inplHandler (f : Value → Value → Except HostExc Value)
    (env : Env) (arg : Nat) (u : Bool) : Tame (inplHandler f env arg u) :=
  tame_bind (tame_hGetIdx _) (fun _ =>
    tame_bind (tame_hGetIdx _) (fun _ =>
      tame_bind (tame_hLift _) (fun r =>
        tame_bind (tame_hSetIdx _ r) (fun _ =>
          tame_bind tame_hPop (fun _ => tame_pure _)))))

lemma tame_compare_op (env : Env) (arg : Nat) (u : Bool) :
    Tame (compare_op env arg u) := by
  unfold compare_op
  refine tame_bind (tame_hLift _) (fun op =>
    tame_bind tame_hPop (fun right =>
      tame_bind tame_hPop (fun left => ?_)))
  refine tame_ite _ ?_ (tame_ite _ ?_ (tame_ite _ ?_ (tame_ite _ ?_
    (tame_ite _ ?_ (tame_ite _ ?_ (tame_pure _))))))
  · exact tame_bind (tame_hLift _) (fun b => tame_hPush _)
  · exact tame_bind (tame_hLift _) (fun b => tame_hPush _)
  · exact tame_hPush _
  · exact tame_hPush _
  · exact tame_bind (tame_hLift _) (fun b => tame_hPush _)
  · exact tame_bind (tame_hLift _) (fun b => tame_hPush _)

lemma tame_load_const (env : Env) (arg : Nat) (u : Bool) :
    Tame (load_const env arg u) :=
  tame_bind tame_hGet (fun _ => tame_bind (tame_hLift _) (fun v => tame_hPush v))

lemma tame_load_name (env : Env) (arg : Nat) (u : Bool) :
    Tame (load_name env arg u) := by
  unfold load_name
  refine tame_bind tame_hGet (fun s =>
    tame_bind (tame_hLift _) (fun name => ?_))
  cases dictGet s.locals name with
  | some v => exact tame_hPush v
  | none =>
    cases dictGet s.globals name with
    | some v => exact tame_hPush v
    | none =>
      cases dictGet (s.builtins env) name with
      | some v => exact tame_hPush v
      | none => exact tame_hRaiseHost _

lemma tame_store_name (env : Env) (arg : Nat) (u : Bool) :
    Tame (store_name env arg u) :=
  tame_bind tame_hGet (fun _ =>
    tame_bind (tame_hLift _) (fun name =>
      tame_bind tame_hPop (fun v => tame_hSetLocal name v)))

lemma tame_load_fast (env : Env) (arg : Nat) (u : Bool) :
    Tame (load_fast env arg u) := by
  unfold load_fast
  refine tame_bind tame_hGet (fun s =>
    tame_bind (tame_hLift _) (fun name => ?_))
  cases dictGet s.locals name with
  | some v => exact tame_hPush v
  | none => exact tame_hRaiseHost _

lemma tame_store_fast (env : Env) (arg : Nat) (u : Bool) :
    Tame (store_fast env arg u) :=
  tame_bind tame_hGet (fun _ =>
    tame_bind (tame_hLift _) (fun name =>
      tame_bind tame_hPop (fun v => tame_hSetLocal name v)))

lemma tame_load_global (env : Env) (arg : Nat) (u : Bool) :
    Tame (load_global env arg u) := by
  unfold load_global
  refine tame_bind tame_hGet (fun s =>
    tame_bind (tame_hLift _) (fun name => ?_))
  cases dictGet s.globals name with
  | some v => exact tame_hPush v
  | none =>
    cases dictGet (s.builtins env) name with
    | some v => exact tame_hPush v
    | none => exact tame_hRaiseHost _

lemma tame_store_global (env : Env) (arg : Nat) (u : Bool) :
    Tame (store_global env arg u) :=
  tame_bind tame_hGet (fun _ =>
    tame_bind (tame_hLift _) (fun name =>
      tame_bind tame_hPop (fun v => tame_hSetGlobal name v)))

lemma tame_build_tuple (env : Env) (arg : Nat) (u : Bool) :
    Tame (build_tuple env arg u) :=
  tame_bind tame_hGet (fun _ =>
    tame_bind (tame_hPush _) (fun _ => tame_hMapStack _))

lemma tame_build_list (env : Env) (arg : Nat) (u : Bool) :
    Tame (build_list env arg u) :=
  tame_bind tame_hGet (fun _ =>
    tame_bind (tame_hPush _) (fun _ => tame_hMapStack _))

lemma tame_unpack_sequence (env : Env) (arg : Nat) (u : Bool) :
    Tame (unpack_sequence env arg u) :=
  tame_bind tame_hPop (fun _ =>
    tame_bind (tame_hLift _) (fun _ => tame_hMapStack _))

lemma tame_mfPopIf (flagged : Bool) : Tame (mfPopIf flagged) := by
  unfold mfPopIf
  exact tame_ite _ (tame_bind tame_hPop (fun v => tame_pure _)) (tame_pure _)

lemma tame_mfAnnotations (annotations : Option Value) :
    Tame (mfAnnotations annotations) := by
  cases annotations with
  | some av => exact tame_ite _ (tame_hLift _) (tame_pure _)
  | none => exact tame_pure _

lemma tame_mfKwDefaults (kw : Option Value) : Tame (mfKwDefaults kw) := by
  cases kw with
  | some kv => exact tame_ite _ (tame_hRaiseHost _) (tame_pure _)
  | none => exact tame_pure _

lemma tame_make_function (env : Env) (arg : Nat) (u : Bool) :
    Tame (make_function env arg u) :=
  tame_bind tame_hPop (fun _ =>
    tame_bind tame_hPop (fun _ =>
      tame_bind (tame_mfPopIf _) (fun _ =>
        tame_bind (tame_mfPopIf _) (fun _ =>
          tame_bind (tame_mfPopIf _) (fun _ =>
            tame_bind (tame_mfPopIf _) (fun _ =>
              tame_bind (tame_hLift _) (fun _ =>
                tame_bind (tame_hLift _) (fun _ =>
                  tame_bind (tame_hLift _) (fun _ =>
                    tame_bind (tame_hLift _) (fun _ =>
                      tame_bind tame_hGet (fun _ =>
                        tame_bind (tame_mfAnnotations _) (fun _ =>
                          tame_bind (tame_mfKwDefaults _) (fun _ =>
                            tame_hPush _)))))))))))))

lemma tame_cfArguments (arg : Nat) : Tame (cfArguments arg) := by
  unfold cfArguments
  exact tame_ite _
    (tame_bind tame_hGet (fun s =>
      tame_bind (tame_hMapStack _) (fun _ => tame_pure _)))
    (tame_pure _)

lemma tame_call_function (env : Env) (arg : Nat) (u : Bool) :
    Tame (call_function env arg u) :=
  tame_bind (tame_cfArguments arg) (fun arguments =>
    tame_bind tame_hPop (fun fn =>
      tame_bind (tame_hLift _) (fun r => tame_hPush r)))

/-! ### Dispatch-level facts -/

/-- The `_unsafe` wrapper around a tame body never moves the
counter (the gate leaves the frame alone; the body is tame). -/
lemma uwrap_counter_of_tame (body : HandlerFn)
    (hb : ∀ env a u, Tame (body env a u)) (env : Env) (a : Nat) (u : Bool)
    (s : Frame) : (((uwrap body) env a u s).1).counter = s.counter := by
  unfold uwrap
  cases u with
  | false => simp [hRaise]
  | true => simpa using (hb env a true s).1

/-- With the flag set, the `_unsafe` wrapper around a tame body
never raises `UnsafeOperation`. -/
lemma uwrap_no_ugate_of_tame (body : HandlerFn)
    (hb : ∀ env a u, Tame (body env a u)) (env : Env) (a : Nat) (s : Frame) :
    (((uwrap body) env a true s).2) ≠ Except.error VMExc.ugate := by
  unfold uwrap
  simpa using (hb env a true s).2

set_option maxHeartbeats 1000000 in
/-- Any registered handler that raised an exception left the
counter unchanged (the `JUMP_ABSOLUTE` body moves the counter but
cannot raise; every other body is tame; the gate raises before
doing anything). -/
lemma handlers_err_counter (nm : String) (h : HandlerFn)
    (hh : handlers nm = some h) (env : Env) (a : Nat) (u : Bool) (s : Frame)
    (e : VMExc) (he : (h env a u s).2 = Except.error e) :
    ((h env a u s).1).counter = s.counter := by
  unfold handlers at hh
  split at hh <;> cases hh
  · exact (tame_pop_top env a u s).1
  · exact (tame_rot_two env a u s).1
  · exact (tame_rot_three env a u s).1
  · exact (tame_rot_four env a u s).1
  · exact (tame_dup_top env a u s).1
  · exact (tame_dup_top_two env a u s).1
  · exact (tame_nop env a u s).1
  · exact uwrap_counter_of_tame _ tame_unary_positive env a u s
  · exact uwrap_counter_of_tame _ tame_unary_negative env a u s
  · exact uwrap_counter_of_tame _ tame_unary_not env a u s
  · exact uwrap_counter_of_tame _ tame_unary_invert env a u s
  · exact uwrap_counter_of_tame _ (fun e2 x y => tame_binHandler pyMatMul e2 x y) env a u s
  · exact uwrap_counter_of_tame _ (fun e2 x y => tame_inplHandler pyMatMul e2 x y) env a u s
  · exact uwrap_counter_of_tame _ (fun e2 x y => tame_binHandler pyPow e2 x y) env a u s
  · exact uwrap_counter_of_tame _ (fun e2 x y => tame_inplHandler pyPow e2 x y) env a u s
  · exact uwrap_counter_of_tame _ (fun e2 x y => tame_binHandler pyMul e2 x y) env a u s
  · exact uwrap_counter_of_tame _ (fun e2 x y => tame_inplHandler pyPow e2 x y) env a u s
  · exact uwrap_counter_of_tame _ (fun e2 x y => tame_binHandler pyMod e2 x y) env a u s
  · exact uwrap_counter_of_tame _ (fun e2 x y => tame_inplHandler pyMod e2 x y) env a u s
  · exact uwrap_counter_of_tame _ (fun e2 x y => tame_binHandler pyAdd e2 x y) env a u s
  · exact uwrap_counter_of_tame _ (fun e2 x y => tame_inplHandler pyAdd e2 x y) env a u s
  · exact uwrap_counter_of_tame _ (fun e2 x y => tame_binHandler pySub e2 x y) env a u s
  · exact uwrap_counter_of_tame _ (fun e2 x y => tame_inplHandler pySub e2 x y) env a u s
  · exact uwrap_counter_of_tame _ (fun e2 x y => tame_binHandler pyFloorDiv e2 x y) env a u s
  · exact uwrap_counter_of_tame _ (fun e2 x y => tame_inplHandler pyFloorDiv e2 x y) env a u s
  · exact uwrap_counter_of_tame _ (fun e2 x y => tame_binHandler pyTrueDiv e2 x y) env a u s
  · exact uwrap_counter_of_tame _ (fun e2 x y => tame_inplHandler pyTrueDiv e2 x y) env a u s
  · exact uwrap_counter_of_tame _ (fun e2 x y => tame_binHandler pySubscr e2 x y) env a u s
  · exact uwrap_counter_of_tame _ tame_compare_op env a u s
  · exact (tame_load_const env a u s).1
  · exact (tame_load_name env a u s).1
  · exact (tame_store_name env a u s).1
  · exact (tame_load_fast env a u s).1
  · exact (tame_store_fast env a u s).1
  · exact (tame_load_global env a u s).1
  · exact (tame_store_global env a u s).1
  · exact (tame_build_tuple env a u s).1
  · exact (tame_build_list env a u s).1
  · exact (tame_unpack_sequence env a u s).1
  · exact (tame_make_function env a u s).1
  · exact uwrap_counter_of_tame _ tame_call_function env a u s
  · cases u with
    | false => simp [uwrap, hRaise]
    | true => simp [uwrap, jump_absolute, hSetCounter] at he

set_option maxHeartbeats 1000000 in
/-- With the flag set, no registered handler raises
`UnsafeOperation`. -/
lemma handlers_no_ugate (nm : String) (h : HandlerFn)
    (hh : handlers nm = some h) (env : Env) (a : Nat) (s : Frame) :
    ((h env a true s).2) ≠ Except.error VMExc.ugate := by
  unfold handlers at hh
  split at hh <;> cases hh
  · exact (tame_pop_top env a true s).2
  · exact (tame_rot_two env a true s).2
  · exact (tame_rot_three env a true s).2
  · exact (tame_rot_four env a true s).2
  · exact (tame_dup_top env a true s).2
  · exact (tame_dup_top_two env a true s).2
  · exact (tame_nop env a true s).2
  · exact uwrap_no_ugate_of_tame _ tame_unary_positive env a s
  · exact uwrap_no_ugate_of_tame _ tame_unary_negative env a s
  · exact uwrap_no_ugate_of_tame _ tame_unary_not env a s
  · exact uwrap_no_ugate_of_tame _ tame_unary_invert env a s
  · exact uwrap_no_ugate_of_tame _ (fun e2 x y => tame_binHandler pyMatMul e2 x y) env a s
  · exact uwrap_no_ugate_of_tame _ (fun e2 x y => tame_inplHandler pyMatMul e2 x y) env a s
  · exact uwrap_no_ugate_of_tame _ (fun e2 x y => tame_binHandler pyPow e2 x y) env a s
  · exact uwrap_no_ugate_of_tame _ (fun e2 x y => tame_inplHandler pyPow e2 x y) env a s
  · exact uwrap_no_ugate_of_tame _ (fun e2 x y => tame_binHandler pyMul e2 x y) env a s
  · exact uwrap_no_ugate_of_tame _ (fun e2 x y => tame_inplHandler pyPow e2 x y) env a s
  · exact uwrap_no_ugate_of_tame _ (fun e2 x y => tame_binHandler pyMod e2 x y) env a s
  · exact uwrap_no_ugate_of_tame _ (fun e2 x y => tame_inplHandler pyMod e2 x y) env a s
  · exact uwrap_no_ugate_of_tame _ (fun e2 x y => tame_binHandler pyAdd e2 x y) env a s
  · exact uwrap_no_ugate_of_tame _ (fun e2 x y => tame_inplHandler pyAdd e2 x y) env a s
  · exact uwrap_no_ugate_of_tame _ (fun e2 x y => tame_binHandler pySub e2 x y) env a s
  · exact uwrap_no_ugate_of_tame _ (fun e2 x y => tame_inplHandler pySub e2 x y) env a s
  · exact uwrap_no_ugate_of_tame _ (fun e2 x y => tame_binHandler pyFloorDiv e2 x y) env a s
  · exact uwrap_no_ugate_of_tame _ (fun e2 x y => tame_inplHandler pyFloorDiv e2 x y) env a s
  · exact uwrap_no_ugate_of_tame _ (fun e2 x y => tame_binHandler pyTrueDiv e2 x y) env a s
  · exact uwrap_no_ugate_of_tame _ (fun e2 x y => tame_inplHandler pyTrueDiv e2 x y) env a s
  · exact uwrap_no_ugate_of_tame _ (fun e2 x y => tame_binHandler pySubscr e2 x y) env a s
  · exact uwrap_no_ugate_of_tame _ tame_compare_op env a s
  · exact (tame_load_const env a true s).2
  · exact (tame_load_name env a true s).2
  · exact (tame_store_name env a true s).2
  · exact (tame_load_fast env a true s).2
  · exact (tame_store_fast env a true s).2
  · exact (tame_load_global env a true s).2
  · exact (tame_store_global env a true s).2
  · exact (tame_build_tuple env a true s).2
  · exact (tame_build_list env a true s).2
  · exact (tame_unpack_sequence env a true s).2
  · exact (tame_make_function env a true s).2
  · exact uwrap_no_ugate_of_tame _ tame_call_function env a s
  · simp [uwrap, jump_absolute, hSetCounter]

/-! ### Unfolding `step` -/

/-- `step` propagates a decode failure. -/
lemma stepEx_decode_err (env : Env) (s : Frame) (u : Bool) (e : HostExc)
    (hco : currentOpcode s = Except.error e) : stepEx env s u = Except.error e := by
  rw [show stepEx env s u
      = (match currentOpcode s with
        | Except.error e => Except.error e
        | Except.ok (op, arg) =>
          match effUnsafe env s (opname op) arg u with
          | Except.error e => Except.error e
          | Except.ok uE =>
            match handlers (opname op) with
            | none => Except.ok (s, some Fault.unknownOpcode)
            | some h =>
              match h env arg uE s with
              | (s₁, Except.error VMExc.ugate) => Except.ok (s₁, some Fault.ugate)
              | (s₁, Except.error (VMExc.host e)) => Except.ok (s₁, some (Fault.wrapped e))
              | (s₁, Except.ok _) =>
                match nextOpcode s₁ with
                | Except.error e => Except.error e
                | Except.ok c => Except.ok ({ s₁ with counter := c }, none)) from rfl,
    hco]

/-- `step` after a successful decode. -/
lemma stepEx_eq1 (env : Env) (s : Frame) (u : Bool) (op arg : Nat)
    (hco : currentOpcode s = Except.ok (op, arg)) :
    stepEx env s u
      = (match effUnsafe env s (opname op) arg u with
        | Except.error e => Except.error e
        | Except.ok uE =>
          match handlers (opname op) with
          | none => Except.ok (s, some Fault.unknownOpcode)
          | some h =>
            match h env arg uE s with
            | (s₁, Except.error VMExc.ugate) => Except.ok (s₁, some Fault.ugate)
            | (s₁, Except.error (VMExc.host e)) => Except.ok (s₁, some (Fault.wrapped e))
            | (s₁, Except.ok _) =>
              match nextOpcode s₁ with
              | Except.error e => Except.error e
              | Except.ok c => Except.ok ({ s₁ with counter := c }, none)) := by
  rw [show stepEx env s u
      = (match currentOpcode s with
        | Except.error e => Except.error e
        | Except.ok (op, arg) =>
          match effUnsafe env s (opname op) arg u with
          | Except.error e => Except.error e
          | Except.ok uE =>
            match handlers (opname op) with
            | none => Except.ok (s, some Fault.unknownOpcode)
            | some h =>
              match h env arg uE s with
              | (s₁, Except.error VMExc.ugate) => Except.ok (s₁, some Fault.ugate)
              | (s₁, Except.error (VMExc.host e)) => Except.ok (s₁, some (Fault.wrapped e))
              | (s₁, Except.ok _) =>
                match nextOpcode s₁ with
                | Except.error e => Except.error e
                | Except.ok c => Except.ok ({ s₁ with counter := c }, none)) from rfl,
    hco]

/-- `step` after decode and effective-flag computation. -/
lemma stepEx_eq2 (env : Env) (s : Frame) (u : Bool) (op arg : Nat) (uE : Bool)
    (hco : currentOpcode s = Except.ok (op, arg))
    (heu : effUnsafe env s (opname op) arg u = Except.ok uE) :
    stepEx env s u
      = (match handlers (opname op) with
        | none => Except.ok (s, some Fault.unknownOpcode)
        | some h =>
          match h env arg uE s with
          | (s₁, Except.error VMExc.ugate) => Except.ok (s₁, some Fault.ugate)
          | (s₁, Except.error (VMExc.host e)) => Except.ok (s₁, some (Fault.wrapped e))
          | (s₁, Except.ok _) =>
            match nextOpcode s₁ with
            | Except.error e => Except.error e
            | Except.ok c => Except.ok ({ s₁ with counter := c }, none)) := by
  rw [stepEx_eq1 env s u op arg hco, heu]

/-- An absent `unsafe_ignores` entry leaves the caller's flag. -/
lemma effUnsafe_none (env : Env) (s : Frame) (nm : String) (arg : Nat)
    (u : Bool) (hui : uiGet s.uIgnores nm = none) :
    effUnsafe env s nm arg u = Except.ok u := by
  unfold effUnsafe
  rw [hui]

/-- `step` with no handler for the opcode name. -/
lemma stepEx_unknown (env : Env) (s : Frame) (u : Bool) (op arg : Nat) (uE : Bool)
    (hco : currentOpcode s = Except.ok (op, arg))
    (heu : effUnsafe env s (opname op) arg u = Except.ok uE)
    (hh : handlers (opname op) = none) :
    stepEx env s u = Except.ok (s, some Fault.unknownOpcode) := by
  rw [stepEx_eq2 env s u op arg uE hco heu, hh]

/-- `step` when the dispatched handler raised `UnsafeOperation`. -/
lemma stepEx_handler_ugate (env : Env) (s : Frame) (u : Bool) (op arg : Nat)
    (uE : Bool) (h1 : HandlerFn) (s₁ : Frame)
    (hco : currentOpcode s = Except.ok (op, arg))
    (heu : effUnsafe env s (opname op) arg u = Except.ok uE)
    (hh : handlers (opname op) = some h1)
    (hr : h1 env arg uE s = (s₁, Except.error VMExc.ugate)) :
    stepEx env s u = Except.ok (s₁, some Fault.ugate) := by
  rw [stepEx_eq2 env s u op arg uE hco heu]
  simp only [hh, hr]

/-- `step` when the dispatched handler raised a host exception. -/
lemma stepEx_handler_host (env : Env) (s : Frame) (u : Bool) (op arg : Nat)
    (uE : Bool) (h1 : HandlerFn) (s₁ : Frame) (e : HostExc)
    (hco : currentOpcode s = Except.ok (op, arg))
    (heu : effUnsafe env s (opname op) arg u = Except.ok uE)
    (hh : handlers (opname op) = some h1)
    (hr : h1 env arg uE s = (s₁, Except.error (VMExc.host e))) :
    stepEx env s u = Except.ok (s₁, some (Fault.wrapped e)) := by
  rw [stepEx_eq2 env s u op arg uE hco heu]
  simp only [hh, hr]

/-- `step` when the dispatched handler completed: the counter
advances to `next_opcode()` of the post-handler frame. -/
lemma stepEx_handler_ok (env : Env) (s : Frame) (u : Bool) (op arg : Nat)
    (uE : Bool) (h1 : HandlerFn) (s₁ : Frame) (a : Unit)
    (hco : currentOpcode s = Except.ok (op, arg))
    (heu : effUnsafe env s (opname op) arg u = Except.ok uE)
    (hh : handlers (opname op) = some h1)
    (hr : h1 env arg uE s = (s₁, Except.ok a)) :
    stepEx env s u
      = (match nextOpcode s₁ with
        | Except.error e => Except.error e
        | Except.ok c => Except.ok ({ s₁ with counter := c }, none)) := by
  rw [stepEx_eq2 env s u op arg uE hco heu]
  simp only [hh, hr]

/-- Shared fault analysis of one `step` call: any returned fault
leaves the counter where it was; an unknown opcode leaves the whole
frame untouched; and a wrapped fault carries exactly the host
exception the dispatched handler raised. -/
lemma step_fault_spec (env : Env) (s : Frame) (u : Bool) (s' : Frame) (f : Fault)
    (h : stepEx env s u = Except.ok (s', some f)) :
    s'.counter = s.counter ∧
    (f = Fault.unknownOpcode → s' = s) ∧
    (∀ e, f = Fault.wrapped e →
      ∃ op arg uE h1, currentOpcode s = Except.ok (op, arg) ∧
        effUnsafe env s (opname op) arg u = Except.ok uE ∧
        handlers (opname op) = some h1 ∧
        h1 env arg uE s = (s', Except.error (VMExc.host e))) := by
  cases hco : currentOpcode s with
  | error e => rw [stepEx_decode_err env s u e hco] at h; cases h
  | ok p =>
    obtain ⟨op, arg⟩ := p
    cases heu : effUnsafe env s (opname op) arg u with
    | error e =>
      rw [stepEx_eq1 env s u op arg hco, heu] at h; cases h
    | ok uE =>
      cases hh : handlers (opname op) with
      | none =>
        rw [stepEx_unknown env s u op arg uE hco heu hh] at h
        injection h with h2
        injection h2 with h3 h4
        injection h4 with h5
        cases h3
        refine ⟨rfl, fun _ => rfl, ?_⟩
        intro e hfe
        rw [← h5] at hfe
        cases hfe
      | some h1 =>
        cases hr : h1 env arg uE s with
        | mk s₁ r =>
          cases r with
          | ok a =>
            rw [stepEx_handler_ok env s u op arg uE h1 s₁ a hco heu hh hr] at h
            cases hnx : nextOpcode s₁ with
            | error e => rw [hnx] at h; cases h
            | ok c =>
              rw [hnx] at h
              injection h with h2
              injection h2 with h3 h4
              cases h4
          | error e =>
            have hcp : s₁.counter = s.counter := by
              have hec := handlers_err_counter (opname op) h1 hh env arg uE s e
                (by rw [hr])
              rwa [hr] at hec
            cases e with
            | ugate =>
              rw [stepEx_handler_ugate env s u op arg uE h1 s₁ hco heu hh hr] at h
              injection h with h2
              injection h2 with h3 h4
              injection h4 with h5
              cases h3
              refine ⟨hcp, ?_, ?_⟩
              · intro hfe
                rw [← h5] at hfe
                cases hfe
              · intro e2 hfe
                rw [← h5] at hfe
                cases hfe
            | host e2 =>
              rw [stepEx_handler_host env s u op arg uE h1 s₁ e2 hco heu hh hr] at h
              injection h with h2
              injection h2 with h3 h4
              injection h4 with h5
              cases h3
              refine ⟨hcp, ?_, ?_⟩
              · intro hfe
                rw [← h5] at hfe
                cases hfe
              intro e3 hfe
              rw [← h5] at hfe
              injection hfe with h6
              cases h6
              exact ⟨op, arg, uE, h1, rfl, heu, hh, hr⟩

/-- Every statically "unsafe" opcode name dispatches to an
`_unsafe`-wrapped handler body. -/
lemma ugate_handlers_uwrap (nm : String) (hnm : nm ∈ unsafeNames) :
    ∃ body, handlers nm = some (uwrap body) := by
  simp only [unsafeNames, List.mem_cons, List.not_mem_nil, or_false] at hnm
  rcases hnm with rfl | rfl | rfl | rfl | rfl | rfl | rfl | rfl | rfl | rfl | rfl | rfl |
    rfl | rfl | rfl | rfl | rfl | rfl | rfl | rfl | rfl | rfl | rfl | rfl
  all_goals exact ⟨_, rfl⟩

/-- C1 counterexample: `BINARY_ADD` (opcode 23) is classified
"unsafe" and not overridden by `unsafe_ignores`, yet `step` with the
flag SET on an empty operand stack returns a wrapped `IndexError`
fault without advancing the counter — refuting the original claim
that setting the flag "executes the handler and advances the
counter". -/
theorem c1_safety_gate_counterexample :
    currentOpcode fr23 = Except.ok (23, 0) ∧
    opname 23 ∈ unsafeNames ∧
    uiGet fr23.uIgnores (opname 23) = none ∧
    stepEx env0 fr23 true
      = Except.ok (fr23, some (Fault.wrapped HostExc.indexError)) ∧
    fr23.counter = 0 := by
  refine ⟨rfl, ?_, rfl, rfl, rfl⟩
  decide

/-- C1 (amended): with the counter addressing a statically "unsafe"
opcode that `unsafe_ignores` does not override, `step` with the flag
UNSET returns the `UnsafeOperation` fault with the WHOLE frame
(counter and operand stack included) unchanged; `step` with the flag
SET never returns that fault — it runs the handler body, and any
fault of the body's own still leaves the counter unchanged, while a
successful run advances the counter to `next_opcode()` of the
post-handler frame. -/
theorem c1_safety_gate_amended (env : Env) (s : Frame) (op arg : Nat)
    (hco : currentOpcode s = Except.ok (op, arg))
    (hmem : opname op ∈ unsafeNames)
    (hui : uiGet s.uIgnores (opname op) = none) :
    stepEx env s false = Except.ok (s, some Fault.ugate) ∧
    (∀ s' f, stepEx env s true = Except.ok (s', some f) →
      f ≠ Fault.ugate ∧ s'.counter = s.counter) ∧
    (∀ s', stepEx env s true = Except.ok (s', none) →
      ∃ body s₁ c, handlers (opname op) = some (uwrap body) ∧
        body env arg true s = (s₁, Except.ok ()) ∧
        nextOpcode s₁ = Except.ok c ∧ s' = { s₁ with counter := c }) := by
  obtain ⟨body, hh⟩ := ugate_handlers_uwrap (opname op) hmem
  refine ⟨?_, ?_, ?_⟩
  · exact stepEx_handler_ugate env s false op arg false (uwrap body) s hco
      (effUnsafe_none env s (opname op) arg false hui) hh rfl
  · intro s' f h
    cases hr : uwrap body env arg true s with
    | mk s₁ r =>
      cases r with
      | ok a =>
        rw [stepEx_handler_ok env s true op arg true (uwrap body) s₁ a hco
          (effUnsafe_none env s (opname op) arg true hui) hh hr] at h
        cases hnx : nextOpcode s₁ with
        | error e => rw [hnx] at h; cases h
        | ok c =>
          rw [hnx] at h
          injection h with h2
          injection h2 with h3 h4
          cases h4
      | error e =>
        cases e with
        | ugate =>
          exact absurd (by rw [hr])
            (handlers_no_ugate (opname op) (uwrap body) hh env arg s)
        | host e2 =>
          rw [stepEx_handler_host env s true op arg true (uwrap body) s₁ e2 hco
            (effUnsafe_none env s (opname op) arg true hui) hh hr] at h
          injection h with h2
          injection h2 with h3 h4
          injection h4 with h5
          cases h3
          constructor
          · intro hfe
            rw [← h5] at hfe
            cases hfe
          · have hec := handlers_err_counter (opname op) (uwrap body) hh env arg
              true s (VMExc.host e2) (by rw [hr])
            rw [hr] at hec
            exact hec
  · intro s' h
    cases hr : uwrap body env arg true s with
    | mk s₁ r =>
      cases r with
      | error e =>
        cases e with
        | ugate =>
          exact absurd (by rw [hr])
            (handlers_no_ugate (opname op) (uwrap body) hh env arg s)
        | host e2 =>
          rw [stepEx_handler_host env s true op arg true (uwrap body) s₁ e2 hco
            (effUnsafe_none env s (opname op) arg true hui) hh hr] at h
          injection h with h2
          injection h2 with h3 h4
          cases h4
      | ok a =>
        cases a
        rw [stepEx_handler_ok env s true op arg true (uwrap body) s₁ () hco
          (effUnsafe_none env s (opname op) arg true hui) hh hr] at h
        cases hnx : nextOpcode s₁ with
        | error e => rw [hnx] at h; cases h
        | ok c =>
          rw [hnx] at h
          injection h with h2
          injection h2 with h3 h4
          exact ⟨body, s₁, c, hh, hr, hnx, h3.symm⟩

/-- Blocked `BINARY_ADD` at a concrete two-element stack: the gate
fault with the frame unchanged. -/
theorem c1_safety_gate_amended_witness :
    stepEx env0 fr23s false = Except.ok (fr23s, some Fault.ugate) :=
  (c1_safety_gate_amended env0 fr23s 23 0 rfl (by decide) rfl).1

/-- C6: whenever `step` returns a fault — unknown opcode,
`UnsafeOperation`, or a wrapped handler exception — the instruction
counter is unchanged by the call (the faulted instruction is
retryable in place); an unknown opcode leaves the whole frame
untouched; and a wrapped fault carries exactly the host exception
the dispatched handler raised. -/
theorem c6_fault_leaves_counter (env : Env) (s : Frame) (u : Bool)
    (s' : Frame) (f : Fault)
    (h : stepEx env s u = Except.ok (s', some f)) :
    s'.counter = s.counter ∧
    (f = Fault.unknownOpcode → s' = s) ∧
    (∀ e, f = Fault.wrapped e →
      ∃ op arg uE h1, currentOpcode s = Except.ok (op, arg) ∧
        effUnsafe env s (opname op) arg u = Except.ok uE ∧
        handlers (opname op) = some h1 ∧
        h1 env arg uE s = (s', Except.error (VMExc.host e))) :=
  step_fault_spec env s u s' f h

/-- An unknown opcode (byte 0) faults with the frame untouched. -/
theorem c6_fault_leaves_counter_witness :
    stepEx env0 frBad true = Except.ok (frBad, some Fault.unknownOpcode) ∧
    frBad.counter = frBad.counter ∧ frBad = frBad :=
  ⟨rfl,
    (c6_fault_leaves_counter env0 frBad true frBad Fault.unknownOpcode rfl).1,
    (c6_fault_leaves_counter env0 frBad true frBad Fault.unknownOpcode rfl).2.1 rfl⟩

end Lili
